import Mathlib

/-!
The aggregation and reporting engine of countmyreps (`db.go`).

A shallow embedding of the functions of `db.go` and the properties of the
reporting engine that are stated about them.

Conventions of the embedding

* Go `int` is the 64-bit two's complement integer: a value is an `Int`, and the
  result of every arithmetic operation that can leave the range is reduced by
  `wrapInt`.  Integer division by zero panics in Go; `goDiv` returns `none`.
* A `time.Time` is the number of seconds since the Unix epoch, in UTC (the
  driver's default location, and the location of dates parsed from a
  `"2006-01-02"` layout), so a day has exactly `86400` seconds.
* The relational store is a record of tables, each a list of rows in storage
  order; the store's string comparison is exact equality and the store itself
  never fails (the only error values are the ones `db.go` produces).
-/

namespace CountMyReps

/-! ## Go machine integers -/

/-- Reduction of an integer to the 64-bit two's complement range of Go's `int`. -/
def wrapInt (x : Int) : Int := (x + 2 ^ 63) % 2 ^ 64 - 2 ^ 63

/-- Go's `a * b` on `int`. -/
def goMul (a b : Int) : Int := wrapInt (a * b)

/-- Go's `a / b` on `int`: a run-time panic (`none`) when `b` is zero, else the
quotient truncated toward zero. -/
def goDiv (a b : Int) : Option Int :=
  if b = 0 then none else some (wrapInt (Int.tdiv a b))

/-! ## `Stats` -/

/-- Modelled from the spec: the type `Stats` is declared outside `db.go`; its
fields here are the head count, the total and the five ratios that
`getOfficeStats` and `getTeamStats` assign, under the names they assign them
by. -/
structure Stats where
  HeadCount : Int
  TotalReps : Int
  PercentParticipating : Int
  RepsPerPerson : Int
  RepsPerPersonParticipating : Int
  RepsPerPersonParticipatingPerDay : Int
  RepsPerPersonPerDay : Int
  deriving DecidableEq, Repr

/-- The statistics block shared verbatim by `getOfficeStats` (lines 377-395) and
`getTeamStats` (lines 312-330), as a function of the three scanned query
results and of `totalDays` as computed from the window, before the clamp.
`none` is a division-by-zero panic. -/
def calculateStats (headCount participating totalReps totalDays : Int) : Option Stats := do
  -- if totalDays <= 0 { totalDays = 1 }
  let totalDays := if totalDays ≤ 0 then 1 else totalDays
  -- if headCount == 0 { headCount = 1 }
  let headCount := if headCount = 0 then 1 else headCount
  let percentParticipating ← goDiv (goMul participating 100) headCount
  let repsPerPerson ← goDiv totalReps headCount
  -- if participating == 0 { participating = 1 }
  let participating := if participating = 0 then 1 else participating
  let repsPerPersonParticipating ← goDiv totalReps participating
  let repsPerPersonParticipatingPerDay ← (goDiv totalReps participating).bind (goDiv · totalDays)
  let repsPerPersonPerDay ← (goDiv totalReps headCount).bind (goDiv · totalDays)
  pure
    { HeadCount := headCount
      TotalReps := totalReps
      PercentParticipating := percentParticipating
      RepsPerPerson := repsPerPerson
      RepsPerPersonParticipating := repsPerPersonParticipating
      RepsPerPersonParticipatingPerDay := repsPerPersonParticipatingPerDay
      RepsPerPersonPerDay := repsPerPersonPerDay }

/-! ## Time -/

/-- Seconds in `time.Hour * 24`. -/
def day24h : Int := 86400

/-- Nanoseconds in `time.Hour * 24`, the unit of `time.Duration`. -/
def day24hNanos : Int := 86400 * 10 ^ 9

/-- The method `Time.Sub`: the difference as a `time.Duration` (nanoseconds in an
`int64`), saturated at the largest and smallest duration. -/
def timeSub (t u : Int) : Int :=
  let d := (t - u) * 10 ^ 9
  if d > 2 ^ 63 - 1 then 2 ^ 63 - 1 else if d < -(2 ^ 63) then -(2 ^ 63) else d

/-- The expression `int(EndDate.Sub(StartDate).Hours() / float64(24))`.  For
two midnights the duration is a whole number of days, its hours are an integer
far below `2 ^ 53`, and the `float64` quotient is exact; the conversion to
`int` truncates toward zero. -/
def totalDays (StartDate EndDate : Int) : Int :=
  Int.tdiv (timeSub EndDate StartDate) day24hNanos

/-- Day of the proleptic Gregorian calendar, as `(month, day)`, of the day
number `z` counted from 1970-01-01: the value of `Time.Month()` and
`Time.Day()` in UTC. -/
def civilMonthDay (z : Int) : Nat × Nat :=
  let z := z + 719468
  let era := z / 146097
  let doe := z - era * 146097
  let yoe := (doe - doe / 1460 + doe / 36524 - doe / 146096) / 365
  let doy := doe - (365 * yoe + yoe / 4 - yoe / 100)
  let mp := (5 * doy + 2) / 153
  let d := doy - (153 * mp + 2) / 5 + 1
  let m := if mp < 10 then mp + 3 else mp - 9
  (m.toNat, d.toNat)

/-- The label `fmt.Sprintf("%d-%d", int(t.Month()), t.Day())` of an instant. -/
def monthDayLabel (t : Int) : String :=
  let md := civilMonthDay (t / day24h)
  toString md.1 ++ "-" ++ toString md.2

/-- The instant MySQL compares `created_at` with when it is handed
`t.Format("2006-01-02")`: midnight at the start of the day of `t`. -/
def formatDate (t : Int) : Int := (t / day24h) * day24h

/-! ## Day buckets -/

/-- A `map[string]int`, as the list of its entries (keys distinct). -/
abbrev ExerciseCounts := List (String × Int)

/-- Reading `m[k]`: the zero value when the key is absent. -/
def ExerciseCounts.get (m : ExerciseCounts) (k : String) : Int :=
  match m.find? (fun e => e.1 == k) with
  | some e => e.2
  | none => 0

/-- The statement `m[k] += c`. -/
def ExerciseCounts.add : ExerciseCounts → String → Int → ExerciseCounts
  | [], k, c => [(k, wrapInt (0 + c))]
  | (k', v) :: m, k, c =>
    if k' = k then (k', wrapInt (v + c)) :: m else (k', v) :: ExerciseCounts.add m k c

/-- One day bucket. -/
structure RepData where
  Date : String
  ExerciseCounts : ExerciseCounts
  deriving DecidableEq, Repr

/-- The loop of `initRepData`, `cur` being the loop variable and `rd` the slice
built so far; the first argument bounds the number of iterations. -/
def initRepDataLoop (EndDate : Int) : Nat → Int → List RepData → List RepData
  | 0, _, rd => rd
  | fuel + 1, cur, rd =>
    if cur < EndDate + day24h then
      initRepDataLoop EndDate fuel (cur + day24h)
        (rd ++ [{ Date := monthDayLabel cur, ExerciseCounts := [] }])
    else rd

/-- The function `initRepData`, with the globals `StartDate` and `EndDate` as
arguments.  The bound handed to the loop is never reached
(`initRepDataLoop_days`). -/
def initRepData (StartDate EndDate : Int) : List RepData :=
  initRepDataLoop EndDate (EndDate + day24h - StartDate).toNat StartDate []

/-! ## Strings -/

/-- The predicate `unicode.IsSpace` on a rune, by code point. -/
def isSpace (c : Char) : Bool :=
  let n := c.toNat
  (9 ≤ n && n ≤ 13) || n = 32 || n = 0x85 || n = 0xA0 || n = 0x1680 ||
    (0x2000 ≤ n && n ≤ 0x200A) || n = 0x2028 || n = 0x2029 || n = 0x202F ||
    n = 0x205F || n = 0x3000

/-- The function `strings.TrimSpace`: leading white space is cut, then trailing
white space. -/
def trimSpace (s : String) : String :=
  String.mk ((s.data.dropWhile isSpace).rdropWhile isSpace)

/-- The function `strings.ToLower` on a string of ASCII letters, digits,
punctuation and blanks, where it replaces `A`-`Z` by `a`-`z`.  The functions
below take the lower-casing function as their first argument, so that what is
proved of them holds for the Unicode mapping as well; this instance evaluates
them on ASCII input. -/
def toLowerASCII (s : String) : String := String.mk (s.data.map Char.toLower)

/-- The function `formattedOffice`, the global catalog `Offices` being an
argument.  The error that the fall-through path logs is not part of the value. -/
def formattedOffice (toLower : String → String) (Offices : List String) (s : String) : String :=
  match Offices with
  | [] => "Unknown"
  | office :: rest =>
    if toLower office = trimSpace (toLower s) then office
    else formattedOffice toLower rest s

/-! ## The relational store -/

/-- A row of table `office`. -/
structure OfficeRow where
  id : Int
  name : String
  head_count : Int
  deriving DecidableEq, Repr

/-- A row of table `user`; `office` refers to `office.id` and is `none` for the
SQL `NULL`, which the column receives when the scalar subquery of the insert
of `getOrCreateUserID` selects no row. -/
structure UserRow where
  id : Int
  email : String
  office : Option Int
  deriving DecidableEq, Repr

/-- A row of table `team`. -/
structure TeamRow where
  id : Int
  name : String
  deriving DecidableEq, Repr

/-- A row of table `user_team`. -/
structure UserTeamRow where
  user_id : Int
  team_id : Int
  deriving DecidableEq, Repr

/-- A row of table `reps`; `created_at` in seconds since the epoch. -/
structure RepsRow where
  user_id : Int
  exercise : String
  count : Int
  created_at : Int
  deriving DecidableEq, Repr

/-- Modelled from the spec: the schema of the relational store is declared
outside `db.go`.  The store behind `*sql.DB` is the five tables that the
queries of `db.go` name, with the columns they name, each the list of its rows;
names are looked up by exact match, and `teamAutoIncrement` and
`userAutoIncrement` are the counters from which the tables `team` and `user`
draw the identifier of an inserted row. -/
structure Store where
  office : List OfficeRow
  user : List UserRow
  team : List TeamRow
  user_team : List UserTeamRow
  reps : List RepsRow
  teamAutoIncrement : Int
  userAutoIncrement : Int
  deriving DecidableEq, Repr

/-- The error values that the functions of `db.go` return when the store itself
does not fail: `sql.ErrNoRows`, and the store's refusal of a statement whose
scalar subquery selects more than one row, as `errors.Wrap` hands it on. -/
inductive DBError where
  | ErrNoRows
  | ErrSubqueryRows
  deriving DecidableEq, Repr

/-! ## Teams -/

/-- The rows of `SELECT id FROM team WHERE name=?`. -/
def selectTeamIDs (db : Store) (teamName : String) : List Int :=
  (db.team.filter (fun r => r.name = teamName)).map (fun r => r.id)

/-- The function `getTeamID`; the value is Go's pair `(int, error)` together
with the store after the call. -/
def getTeamID (db : Store) (teamName : String) (createIfMissing : Bool) :
    (Int × Option DBError) × Store :=
  let id : Int := 0
  let teamName := trimSpace teamName
  -- SELECT id FROM team WHERE name=? LIMIT 1
  match (selectTeamIDs db teamName).take 1 with
  | id :: _ => ((id, none), db)
  | [] =>
    if id = 0 ∧ createIfMissing = true then
      -- INSERT INTO team SET name=?
      let resID := db.teamAutoIncrement
      ((resID, none),
        { db with team := db.team ++ [{ id := resID, name := teamName }],
                  teamAutoIncrement := resID + 1 })
    else ((0, some DBError.ErrNoRows), db)

/-- The value of `SELECT count(*) FROM user_team WHERE user_team.team_id=? AND
user_team.user_id=?`. -/
def countUserTeam (db : Store) (teamID userID : Int) : Nat :=
  (db.user_team.filter (fun r => r.team_id = teamID ∧ r.user_id = userID)).length

/-- The function `isOnTeam`.  The scalar subquery `(SELECT id FROM team WHERE
name=?)` is `NULL` on no row, so that no row is counted, and an error of the
store on more than one row, which the function logs before it returns
`count > 0` with `count` still zero. -/
def isOnTeam (db : Store) (teamName : String) (userID : Int) : Bool :=
  match selectTeamIDs db teamName with
  | [] => false
  | [id] =>
    let count : Int := countUserTeam db id userID
    decide (count > 0)
  | _ :: _ :: _ => false

/-- The function `addTeam`: Go's `error` result and the store after the call. -/
def addTeam (db : Store) (teamName : String) (userID : Int) : Option DBError × Store :=
  let teamName := trimSpace teamName
  match getTeamID db teamName true with
  | ((_, some err), db) => (some err, db)
  | ((teamID, none), db) =>
    if isOnTeam db teamName userID then (none, db)
    else
      -- INSERT INTO user_team (user_id, team_id) VALUES (?,?)
      (none, { db with user_team := db.user_team ++ [{ user_id := userID, team_id := teamID }] })

/-- The function `removeTeam`: Go's `error` result and the store after the call. -/
def removeTeam (db : Store) (teamName : String) (userID : Int) : Option DBError × Store :=
  let teamName := trimSpace teamName
  match getTeamID db teamName false with
  | ((_, some err), db) => (some err, db)
  | ((teamID, none), db) =>
    -- DELETE FROM user_team WHERE user_id=? AND team_id=?
    (none, { db with user_team :=
      db.user_team.filter (fun r => ¬ (r.user_id = userID ∧ r.team_id = teamID)) })

/-- The function `getUserTeams`: the names of the teams whose identifier is
among the `team_id` of the membership rows joined to a user with the email. -/
def getUserTeams (db : Store) (email : String) : List String :=
  let teamIDs :=
    (db.user_team.filter (fun ut =>
      db.user.any (fun u => decide (ut.user_id = u.id ∧ u.email = email)))).map
        (fun ut => ut.team_id)
  (db.team.filter (fun t => decide (t.id ∈ teamIDs))).map (fun t => t.name)

/-- The function `contains` of the test file. -/
def contains (needle : String) (haystack : List String) : Bool :=
  match haystack with
  | [] => false
  | s :: rest => if s = needle then true else contains needle rest

/-! ## Reps of a user -/

/-- The rows `(exercise, count, created_at)` of the query of `getUserReps`:
`reps` joined to `user` on the identifier, for the email, strictly between the
two dates as the store reads them. -/
def selectUserReps (db : Store) (email : String) (StartDate EndDate : Int) :
    List (String × Int × Int) :=
  db.reps.flatMap (fun r =>
    (db.user.filter (fun u =>
      decide (r.user_id = u.id ∧ u.email = email ∧
        r.created_at > formatDate StartDate ∧ r.created_at < formatDate EndDate))).map
      (fun _ => (r.exercise, r.count, r.created_at)))

/-- The inner loop of `getUserReps` for one scanned row: every bucket whose
label is the month and day of `createdAt` has its count for the exercise
increased.  The loop variable `rd` is a copy of the bucket, but its
`ExerciseCounts` is the bucket's own map, so the update is the bucket's. -/
def addToBuckets (repDatas : List RepData) (exercise : String) (count createdAt : Int) :
    List RepData :=
  repDatas.map (fun rd =>
    if rd.Date ≠ monthDayLabel createdAt then rd
    else { rd with ExerciseCounts := rd.ExerciseCounts.add exercise count })

/-- The function `getUserReps`, the globals `StartDate` and `EndDate` being
arguments. -/
def getUserReps (db : Store) (email : String) (StartDate EndDate : Int) : List RepData :=
  (selectUserReps db email StartDate EndDate).foldl
    (fun repDatas row => addToBuckets repDatas row.1 row.2.1 row.2.2)
    (initRepData StartDate EndDate)

/-- The map of exercise counts of the bucket labelled `label` once the loop of
`getUserReps` has gone over `rows`, starting from the map `m`: the effect of
`addToBuckets` on one bucket. -/
def bucketCounts (label : String) (rows : List (String × Int × Int)) (m : ExerciseCounts) :
    ExerciseCounts :=
  rows.foldl
    (fun m row => if label ≠ monthDayLabel row.2.2 then m else m.add row.1 row.2.1) m

/-- In the words of the specification: the sum of the counts of the reps of the
user `userID` for one exercise that were created on the calendar day of number
`z`, later than the instant `after`. -/
def repsOnDay (db : Store) (userID : Int) (exercise : String) (z after : Int) : Int :=
  ((db.reps.filter (fun r =>
    decide (r.user_id = userID ∧ r.exercise = exercise ∧ r.created_at / day24h = z ∧
      after < r.created_at))).map (fun r => r.count)).sum

/-! ## Office statistics -/

/-- The rows of the join `reps`, `user`, `office` that both windowed queries of
`getOfficeStats` range over: the office is the user's, it has the given name,
and the rep was created strictly between the two dates as the store reads
them. -/
def selectOfficeReps (db : Store) (officeName : String) (StartDate EndDate : Int) :
    List (RepsRow × UserRow) :=
  db.reps.flatMap (fun r =>
    db.user.flatMap (fun u =>
      (db.office.filter (fun o =>
        decide (r.user_id = u.id ∧ u.office = some o.id ∧ o.name = officeName ∧
          r.created_at > formatDate StartDate ∧ r.created_at < formatDate EndDate))).map
        (fun _ => (r, u))))

/-- The statement `officeStats[officeName] = stats` on a `map[string]Stats`. -/
def setStats : List (String × Stats) → String → Stats → List (String × Stats)
  | [], k, v => [(k, v)]
  | (k', v') :: m, k, v => if k' = k then (k', v) :: m else (k', v') :: setStats m k v

/-- The loop of `getOfficeStats` over the catalog, `officeStats` being the map
built so far.  `none` is a division-by-zero panic. -/
def getOfficeStatsLoop (db : Store) (StartDate EndDate : Int) :
    List String → List (String × Stats) → Option (List (String × Stats))
  | [], officeStats => some officeStats
  | officeName :: rest, officeStats =>
    -- SELECT head_count FROM office WHERE office.name=?
    match (db.office.filter (fun o => o.name = officeName)).map (fun o => o.head_count) with
    | [] => getOfficeStatsLoop db StartDate EndDate rest officeStats
    | headCount :: _ =>
      let rows := selectOfficeReps db officeName StartDate EndDate
      -- SELECT count(distinct id) from (...) participating
      let participating : Int := ((rows.map (fun ru => ru.2.id)).dedup).length
      -- select sum(reps.count) from ...; a sum that no int64 holds fails to scan
      let totalReps : Int := (rows.map (fun ru => ru.1.count)).sum
      if totalReps < -(2 ^ 63) ∨ 2 ^ 63 ≤ totalReps then some officeStats
      else
        match calculateStats headCount participating totalReps (totalDays StartDate EndDate) with
        | none => none
        | some stats =>
          getOfficeStatsLoop db StartDate EndDate rest (setStats officeStats officeName stats)

/-- The function `getOfficeStats`, the globals `Offices`, `StartDate` and
`EndDate` being arguments. -/
def getOfficeStats (db : Store) (Offices : List String) (StartDate EndDate : Int) :
    Option (List (String × Stats)) :=
  getOfficeStatsLoop db StartDate EndDate Offices []

/-- The office of the end-to-end scenario: "OC" with head count 10 and four
users who logged 200 reps between them on 2016-11-01, 02 and 03 (at noon). -/
def scenarioStore : Store :=
  { office := [{ id := 1, name := "OC", head_count := 10 }]
    user := [{ id := 1, email := "oc_1@sendgrid.com", office := some 1 },
             { id := 2, email := "oc_2@sendgrid.com", office := some 1 },
             { id := 3, email := "oc_3@sendgrid.com", office := some 1 },
             { id := 4, email := "oc_4@sendgrid.com", office := some 1 }]
    team := []
    user_team := []
    reps := [{ user_id := 1, exercise := "pushups", count := 50, created_at := 1478001600 },
             { user_id := 2, exercise := "pushups", count := 50, created_at := 1478088000 },
             { user_id := 3, exercise := "squats", count := 50, created_at := 1478088000 },
             { user_id := 4, exercise := "situps", count := 25, created_at := 1478174400 },
             { user_id := 4, exercise := "pullups", count := 25, created_at := 1478174400 }]
    teamAutoIncrement := 1
    userAutoIncrement := 5 }

/-- The user of the end-to-end scenario of a two-day window: 10 pushups at noon
of 2016-11-01 and 5 pushups at noon of 2016-11-02. -/
def twoDayStore : Store :=
  { office := [{ id := 1, name := "OC", head_count := 10 }]
    user := [{ id := 1, email := "oc_1@sendgrid.com", office := some 1 }]
    team := []
    user_team := []
    reps := [{ user_id := 1, exercise := "pushups", count := 10, created_at := 1478001600 },
             { user_id := 1, exercise := "pushups", count := 5, created_at := 1478088000 }]
    teamAutoIncrement := 1
    userAutoIncrement := 2 }

/-! ## Users -/

/-- The rows of `SELECT id FROM user WHERE email=?`. -/
def selectUserIDs (db : Store) (email : String) : List Int :=
  (db.user.filter (fun u => u.email = email)).map (fun u => u.id)

/-- The rows of the scalar subquery `(SELECT id from office where name="")`. -/
def selectUnassignedOffice (db : Store) : List Int :=
  (db.office.filter (fun o => o.name = "")).map (fun o => o.id)

/-- The function `getOrCreateUserID`; the value is Go's pair `(int, error)`
together with the store after the call.  The scalar subquery of the insert is
`NULL` on no row, the identifier of the unassigned office on one row, and the
store's refusal of the statement on more than one. -/
def getOrCreateUserID (db : Store) (email : String) : (Int × Option DBError) × Store :=
  -- SELECT id FROM user WHERE email=? LIMIT 1
  match (selectUserIDs db email).take 1 with
  | id :: _ => ((id, none), db)
  | [] =>
    -- err == sql.ErrNoRows:
    -- INSERT INTO user (email, office) VALUES (?, (SELECT id from office where name=""))
    let i := db.userAutoIncrement
    match selectUnassignedOffice db with
    | [] =>
      ((i, none),
        { db with user := db.user ++ [{ id := i, email := email, office := none }],
                  userAutoIncrement := i + 1 })
    | [office] =>
      ((i, none),
        { db with user := db.user ++ [{ id := i, email := email, office := some office }],
                  userAutoIncrement := i + 1 })
    | _ :: _ :: _ => ((0, some DBError.ErrSubqueryRows), db)

/-! ## Team statistics -/

/-- The function `getTeams`: the rows of `SELECT id, name FROM team`. -/
def getTeams (db : Store) : List TeamRow := db.team

/-- The value of `SELECT count(*) FROM user_team WHERE user_team.team_id=?`. -/
def teamHeadCount (db : Store) (teamID : Int) : Int :=
  (db.user_team.filter (fun r => r.team_id = teamID)).length

/-- The value of the query `qTotals` of `getTeamStats`: the sum of the counts of
the reps created strictly between the two dates, as the store reads them, by a
user with a membership row for the team; `0` for the `NULL` of an empty sum. -/
def teamTotalReps (db : Store) (teamID : Int) (StartDate EndDate : Int) : Int :=
  ((db.reps.filter (fun r =>
    decide (r.created_at > formatDate StartDate ∧ r.created_at < formatDate EndDate ∧
      r.user_id ∈ (db.user_team.filter (fun ut => ut.team_id = teamID)).map
        (fun ut => ut.user_id)))).map (fun r => r.count)).sum

/-- The loop of `getTeamStats` over the teams, `teamStats` being the map built
so far.  `none` is a division-by-zero panic. -/
def getTeamStatsLoop (db : Store) (StartDate EndDate : Int) :
    List TeamRow → List (String × Stats) → Option (List (String × Stats))
  | [], teamStats => some teamStats
  | team :: rest, teamStats =>
    let teamName := team.name
    let teamID := team.id
    -- SELECT count(*) FROM user_team WHERE user_team.team_id=?
    let headCount := teamHeadCount db teamID
    let participating := headCount
    -- select sum(reps.count) from reps where ...; a sum that no int64 holds fails to scan
    let totalReps := teamTotalReps db teamID StartDate EndDate
    if totalReps < -(2 ^ 63) ∨ 2 ^ 63 ≤ totalReps then some teamStats
    else
      match calculateStats headCount participating totalReps (totalDays StartDate EndDate) with
      | none => none
      | some stats =>
        getTeamStatsLoop db StartDate EndDate rest (setStats teamStats teamName stats)

/-- The function `getTeamStats`, the globals `StartDate` and `EndDate` being
arguments. -/
def getTeamStats (db : Store) (StartDate EndDate : Int) : Option (List (String × Stats)) :=
  getTeamStatsLoop db StartDate EndDate (getTeams db) []

/-- A seeded store: the unassigned office and "OC", two users of "OC", the team
"eng" of both and the team "idle" of nobody, and reps on 2016-11-01 and 02. -/
def seededStore : Store :=
  { office := [{ id := 1, name := "", head_count := 0 },
               { id := 2, name := "OC", head_count := 10 }]
    user := [{ id := 1, email := "oc_1@sendgrid.com", office := some 2 },
             { id := 2, email := "oc_2@sendgrid.com", office := some 2 }]
    team := [{ id := 1, name := "eng" }, { id := 2, name := "idle" }]
    user_team := [{ user_id := 1, team_id := 1 }, { user_id := 2, team_id := 1 }]
    reps := [{ user_id := 1, exercise := "pushups", count := 30, created_at := 1478001600 },
             { user_id := 2, exercise := "squats", count := 11, created_at := 1478088000 }]
    teamAutoIncrement := 3
    userAutoIncrement := 3 }

/-- A store with two teams named "x": the user 1 has a membership row for the
second of them only. -/
def duplicateTeamStore : Store :=
  { office := []
    user := [{ id := 1, email := "oc_1@sendgrid.com", office := none }]
    team := [{ id := 1, name := "x" }, { id := 2, name := "x" }]
    user_team := [{ user_id := 1, team_id := 2 }]
    reps := []
    teamAutoIncrement := 3
    userAutoIncrement := 2 }

/-- A store with two teams named "eng": the first has the users 1 and 2 as
members, the second has no member. -/
def sameNameTeamsStore : Store :=
  { office := []
    user := [{ id := 1, email := "oc_1@sendgrid.com", office := none },
             { id := 2, email := "oc_2@sendgrid.com", office := none }]
    team := [{ id := 1, name := "eng" }, { id := 2, name := "eng" }]
    user_team := [{ user_id := 1, team_id := 1 }, { user_id := 2, team_id := 1 }]
    reps := [{ user_id := 1, exercise := "pushups", count := 30, created_at := 1478001600 }]
    teamAutoIncrement := 3
    userAutoIncrement := 3 }

/-! ## Lemmas on machine integers -/

theorem wrapInt_of_range (x : Int) (hlo : -(2 ^ 63) ≤ x) (hhi : x < 2 ^ 63) : wrapInt x = x := by
  unfold wrapInt
  norm_num at hlo hhi ⊢
  omega

theorem goDiv_of_pos (a b : Int) (ha : 0 ≤ a) (hamax : a < 2 ^ 63) (hb : 0 < b) :
    goDiv a b = some (a / b) := by
  have hne : b ≠ 0 := by omega
  have hq : Int.tdiv a b = a / b := Int.tdiv_eq_ediv ha (le_of_lt hb)
  have h0 : 0 ≤ a / b := Int.ediv_nonneg ha (le_of_lt hb)
  have h1 : a / b ≤ a := Int.ediv_le_self b ha
  unfold goDiv
  rw [if_neg hne, hq, wrapInt_of_range (a / b) (by norm_num; omega) (by omega)]

theorem goDiv_isSome (a b : Int) (hb : b ≠ 0) : (goDiv a b).isSome = true := by
  simp [goDiv, hb]

/-! ## The statistics block -/

/-- C1 (as amended): for non-negative `headCount`, `participating` and
`totalReps` with `totalReps` and `participating * 100` inside the 64-bit `int`,
and for every `windowDays`, the statistics block of `getOfficeStats` (and of
`getTeamStats`) returns without a division by zero, and with `h`, `p`, `d` the
three guarded denominators its ratios are `participating * 100 / h`,
`totalReps / h`, `totalReps / p`, `totalReps / h / d` and `totalReps / p / d` by
floor division; in particular head count 0, 50 reps, 0 participants and 5 days
give 0 percent, 50 reps per person and 10 per person per day.  Whatever the
inputs, no division by zero occurs. -/
theorem calculateStats_ratios (headCount participating totalReps windowDays : Int)
    (hh : 0 ≤ headCount) (hp : 0 ≤ participating) (ht : 0 ≤ totalReps)
    (htmax : totalReps < 2 ^ 63) (hpmax : participating * 100 < 2 ^ 63) :
    (calculateStats headCount participating totalReps windowDays =
      some
        { HeadCount := if headCount ≠ 0 then headCount else 1
          TotalReps := totalReps
          PercentParticipating :=
            participating * 100 / (if headCount ≠ 0 then headCount else 1)
          RepsPerPerson := totalReps / (if headCount ≠ 0 then headCount else 1)
          RepsPerPersonParticipating :=
            totalReps / (if participating ≠ 0 then participating else 1)
          RepsPerPersonParticipatingPerDay :=
            totalReps / (if participating ≠ 0 then participating else 1) /
              (if windowDays > 0 then windowDays else 1)
          RepsPerPersonPerDay :=
            totalReps / (if headCount ≠ 0 then headCount else 1) /
              (if windowDays > 0 then windowDays else 1) }) ∧
    calculateStats 0 0 50 5 =
      some
        { HeadCount := 1, TotalReps := 50, PercentParticipating := 0, RepsPerPerson := 50,
          RepsPerPersonParticipating := 50, RepsPerPersonParticipatingPerDay := 10,
          RepsPerPersonPerDay := 10 } ∧
    ∀ a b c d : Int, (calculateStats a b c d).isSome = true := by
  refine ⟨?_, by decide, ?_⟩
  · have hH : (if headCount = 0 then (1 : Int) else headCount) =
        (if headCount ≠ 0 then headCount else 1) := by
      by_cases h : headCount = 0 <;> simp [h]
    have hP : (if participating = 0 then (1 : Int) else participating) =
        (if participating ≠ 0 then participating else 1) := by
      by_cases h : participating = 0 <;> simp [h]
    have hD : (if windowDays ≤ 0 then (1 : Int) else windowDays) =
        (if windowDays > 0 then windowDays else 1) := by
      by_cases h : windowDays ≤ 0
      · rw [if_pos h, if_neg (by omega)]
      · rw [if_neg h, if_pos (by omega)]
    have hHpos : 0 < (if headCount ≠ 0 then headCount else 1) := by
      by_cases h : headCount = 0
      · simp [h]
      · rw [if_pos h]; omega
    have hPpos : 0 < (if participating ≠ 0 then participating else 1) := by
      by_cases h : participating = 0
      · simp [h]
      · rw [if_pos h]; omega
    have hDpos : 0 < (if windowDays > 0 then windowDays else 1) := by
      by_cases h : windowDays > 0
      · rw [if_pos h]; exact h
      · rw [if_neg h]; decide
    have hmul : goMul participating 100 = participating * 100 :=
      wrapInt_of_range _ (by norm_num; omega) hpmax
    have hq1 : totalReps / (if headCount ≠ 0 then headCount else 1) < 2 ^ 63 :=
      lt_of_le_of_lt (Int.ediv_le_self _ ht) htmax
    have hq2 : totalReps / (if participating ≠ 0 then participating else 1) < 2 ^ 63 :=
      lt_of_le_of_lt (Int.ediv_le_self _ ht) htmax
    have hq1n : 0 ≤ totalReps / (if headCount ≠ 0 then headCount else 1) :=
      Int.ediv_nonneg ht (le_of_lt hHpos)
    have hq2n : 0 ≤ totalReps / (if participating ≠ 0 then participating else 1) :=
      Int.ediv_nonneg ht (le_of_lt hPpos)
    unfold calculateStats
    simp only [hH, hP, hD, hmul]
    rw [goDiv_of_pos _ _ (by omega) hpmax hHpos, goDiv_of_pos _ _ ht htmax hHpos,
      goDiv_of_pos _ _ ht htmax hPpos]
    simp only [Option.bind_eq_bind, Option.some_bind, Option.bind_some, Option.pure_def]
    rw [goDiv_of_pos _ _ hq2n hq2 hDpos, goDiv_of_pos _ _ hq1n hq1 hDpos]
    rfl
  · intro a b c d
    have hH : (if a = 0 then (1 : Int) else a) ≠ 0 := by
      by_cases h : a = 0 <;> simp [h]
    have hP : (if b = 0 then (1 : Int) else b) ≠ 0 := by
      by_cases h : b = 0 <;> simp [h]
    have hD : (if d ≤ 0 then (1 : Int) else d) ≠ 0 := by
      by_cases h : d ≤ 0
      · simp [h]
      · rw [if_neg h]; omega
    simp [calculateStats, goDiv, hH, hP, hD]

/-- Witness of the amended C1: head count 10, 4 participants, 200 reps
and 4 days. -/
theorem calculateStats_ratios_witness :
    calculateStats 10 4 200 4 =
      some
        { HeadCount := 10, TotalReps := 200, PercentParticipating := 40, RepsPerPerson := 20,
          RepsPerPersonParticipating := 50, RepsPerPersonParticipatingPerDay := 12,
          RepsPerPersonPerDay := 5 } :=
  (calculateStats_ratios 10 4 200 4 (by decide) (by decide) (by decide) (by decide)
    (by decide)).1

/-- C1 as stated fails on a 64-bit `int`: with head count 1 and
92233720368547759 participants the product `participating * 100` wraps, and
`PercentParticipating` is negative instead of `participating * 100 / 1`. -/
theorem calculateStats_percent_wraps :
    (0 : Int) ≤ 92233720368547759 ∧ (92233720368547759 : Int) < 2 ^ 63 ∧
    (calculateStats 1 92233720368547759 0 1).map (fun st => st.PercentParticipating) =
      some (-9223372036854775716) ∧
    (calculateStats 1 92233720368547759 0 1).map (fun st => st.PercentParticipating) ≠
      some (92233720368547759 * 100 / 1) := by
  decide

/-! ## The day skeleton -/

theorem initRepDataLoop_days (e : Int) (k : Nat) :
    ∀ (fuel : Nat) (c : Int) (rd : List RepData), k ≤ fuel → c + k = e + 1 →
      initRepDataLoop (day24h * e) fuel (day24h * c) rd =
        rd ++ (List.range k).map
          (fun i => { Date := monthDayLabel (day24h * (c + i)), ExerciseCounts := [] }) := by
  induction k with
  | zero =>
    intro fuel c rd _ hc
    have hnot : ¬ (day24h * c < day24h * e + day24h) := by
      unfold day24h; push_cast at hc; omega
    cases fuel with
    | zero => simp [initRepDataLoop]
    | succ f => simp [initRepDataLoop, hnot]
  | succ k ih =>
    intro fuel c rd hf hc
    cases fuel with
    | zero => omega
    | succ f =>
      have hlt : day24h * c < day24h * e + day24h := by
        unfold day24h; push_cast at hc; omega
      have hnext : day24h * c + day24h = day24h * (c + 1) := by
        unfold day24h; omega
      unfold initRepDataLoop
      rw [if_pos hlt, hnext, ih f (c + 1) _ (by omega) (by push_cast at hc ⊢; omega)]
      rw [List.range_succ_eq_map, List.map_cons, List.map_map, List.append_assoc]
      simp only [List.singleton_append, Nat.cast_zero, add_zero]
      congr 2
      apply List.map_congr_left
      intro i _
      simp only [Function.comp, Nat.cast_succ]
      congr 3
      omega

theorem initRepData_days (ds de : Int) (h : ds ≤ de) :
    initRepData (day24h * ds) (day24h * de) =
      (List.range ((de - ds).toNat + 1)).map
        (fun i => { Date := monthDayLabel (day24h * (ds + i)), ExerciseCounts := [] }) := by
  unfold initRepData
  rw [initRepDataLoop_days de ((de - ds).toNat + 1) _ ds [] (by unfold day24h; omega)
    (by push_cast; omega)]
  simp

theorem monthDayLabel_midnight (z : Int) :
    monthDayLabel (day24h * z) =
      toString (civilMonthDay z).1 ++ "-" ++ toString (civilMonthDay z).2 := by
  unfold monthDayLabel
  have hz : day24h * z / day24h = z := Int.mul_ediv_cancel_left z (by decide)
  simp only [hz]

/-- The calendar of `civilMonthDay` at the epoch, the day before it, a leap day
and its neighbours, and the first and the last day of November 2016. -/
theorem civilMonthDay_samples :
    civilMonthDay 0 = (1, 1) ∧ civilMonthDay (-1) = (12, 31) ∧
    civilMonthDay 16859 = (2, 28) ∧ civilMonthDay 16860 = (2, 29) ∧
    civilMonthDay 16861 = (3, 1) ∧ civilMonthDay 17106 = (11, 1) ∧
    civilMonthDay 17135 = (11, 30) ∧ civilMonthDay 17136 = (12, 1) := by
  decide

/-- C3: for two calendar dates `start ≤ end` (midnights, `ds` and `de` being
their day numbers) `initRepData` returns `(de - ds) + 1` buckets, and the bucket
of index `i` carries the unpadded "month-day" of the day `start + i` and an
empty map of exercise counts; the store is no argument of the function. -/
theorem initRepData_skeleton (ds de : Int) (h : ds ≤ de) :
    (initRepData (day24h * ds) (day24h * de)).length = (de - ds).toNat + 1 ∧
    ∀ i : Nat, i < (de - ds).toNat + 1 →
      (initRepData (day24h * ds) (day24h * de))[i]? =
        some
          { Date := toString (civilMonthDay (ds + i)).1 ++ "-" ++
              toString (civilMonthDay (ds + i)).2
            ExerciseCounts := [] } := by
  rw [initRepData_days ds de h]
  refine ⟨by simp, ?_⟩
  intro i hi
  rw [List.getElem?_map, List.getElem?_range hi]
  simp only [Option.map_some', monthDayLabel_midnight]

/-- Witness of C3: the window from 2016-11-01 to
2016-11-03. -/
theorem initRepData_skeleton_witness :
    initRepData (day24h * 17106) (day24h * 17108) =
      [{ Date := "11-1", ExerciseCounts := [] }, { Date := "11-2", ExerciseCounts := [] },
       { Date := "11-3", ExerciseCounts := [] }] ∧
    (initRepData (day24h * 17106) (day24h * 17108)).length = (17108 - 17106 : Int).toNat + 1 :=
  ⟨by decide, (initRepData_skeleton 17106 17108 (by decide)).1⟩

/-! ## The scenario of an office -/

/-- C4 as stated fails: over the window from 2016-11-01 to 2016-11-04, whose
skeleton has four buckets, `totalDays` is 3, and for the office of head count
10 with 4 participants and 200 reps `getOfficeStats` reports 6 reps per person
per day and 16 per participating person per day, not 5 and 12. -/
theorem getOfficeStats_four_buckets :
    (initRepData 1477958400 1478217600).length = 4 ∧
    totalDays 1477958400 1478217600 = 3 ∧
    getOfficeStats scenarioStore ["OC"] 1477958400 1478217600 =
      some [("OC",
        { HeadCount := 10, TotalReps := 200, PercentParticipating := 40, RepsPerPerson := 20,
          RepsPerPersonParticipating := 50, RepsPerPersonParticipatingPerDay := 16,
          RepsPerPersonPerDay := 6 })] ∧
    getOfficeStats scenarioStore ["OC"] 1477958400 1478217600 ≠
      some [("OC",
        { HeadCount := 10, TotalReps := 200, PercentParticipating := 40, RepsPerPerson := 20,
          RepsPerPersonParticipating := 50, RepsPerPersonParticipatingPerDay := 12,
          RepsPerPersonPerDay := 5 })] := by
  decide

theorem totalDays_midnights (ds : Int) (n : Nat) (hn : n ≤ 100000) :
    totalDays (day24h * ds) (day24h * (ds + n)) = n := by
  have hd : (day24h * (ds + n) - day24h * ds) * 10 ^ 9 = (n : Int) * day24hNanos := by
    unfold day24h day24hNanos; ring
  have hpos : (0 : Int) < day24hNanos := by unfold day24hNanos; norm_num
  unfold totalDays timeSub
  simp only [hd]
  have h1 : ¬ ((n : Int) * day24hNanos > 2 ^ 63 - 1) := by
    unfold day24hNanos; norm_num; omega
  have h2 : ¬ ((n : Int) * day24hNanos < -(2 ^ 63)) := by
    unfold day24hNanos; norm_num; omega
  rw [if_neg h1, if_neg h2, Int.tdiv_eq_ediv (Int.mul_nonneg (Int.ofNat_nonneg n) (le_of_lt hpos)) (le_of_lt hpos)]
  exact Int.mul_ediv_cancel _ (ne_of_gt hpos)

/-! ## Office names -/

theorem dropWhile_concat_of_neg {α : Type} (p : α → Bool) (a : α) (hpa : p a = false) :
    ∀ x : List α, List.dropWhile p (x ++ [a]) = List.dropWhile p x ++ [a] := by
  intro x
  induction x with
  | nil => simp [List.dropWhile, hpa]
  | cons b x ih =>
    by_cases hb : p b = true
    · simp [List.dropWhile, hb, ih]
    · simp [List.dropWhile, hb]

theorem rdropWhile_cons_of_neg {α : Type} (p : α → Bool) (a : α) (hpa : p a = false)
    (t : List α) : List.rdropWhile p (a :: t) = a :: List.rdropWhile p t := by
  unfold List.rdropWhile
  rw [List.reverse_cons, dropWhile_concat_of_neg p a hpa, List.reverse_append]
  simp

theorem dropWhile_nil_or_head {α : Type} (p : α → Bool) :
    ∀ l : List α, List.dropWhile p l = [] ∨
      ∃ a t, List.dropWhile p l = a :: t ∧ p a = false := by
  intro l
  induction l with
  | nil => left; rfl
  | cons b l ih =>
    by_cases hb : p b = true
    · simpa [List.dropWhile, hb] using ih
    · right
      exact ⟨b, l, by simp [List.dropWhile, hb], by simpa using hb⟩

theorem trimSpace_idempotent (s : String) : trimSpace (trimSpace s) = trimSpace s := by
  unfold trimSpace
  congr 1
  show List.rdropWhile isSpace (List.dropWhile isSpace
    (List.rdropWhile isSpace (List.dropWhile isSpace s.data))) = _
  rcases dropWhile_nil_or_head isSpace s.data with h | ⟨a, t, h, ha⟩
  · rw [h]; simp [List.rdropWhile]
  · rw [h, rdropWhile_cons_of_neg isSpace a ha]
    have hd : List.dropWhile isSpace (a :: List.rdropWhile isSpace t) =
        a :: List.rdropWhile isSpace t := by
      simp [List.dropWhile, ha]
    rw [hd, rdropWhile_cons_of_neg isSpace a ha, List.rdropWhile_idempotent]

theorem formattedOffice_congr (toLower : String → String) (Offices : List String)
    (s₁ s₂ : String) (h : trimSpace (toLower s₁) = trimSpace (toLower s₂)) :
    formattedOffice toLower Offices s₁ = formattedOffice toLower Offices s₂ := by
  induction Offices with
  | nil => rfl
  | cons o rest ih => simp only [formattedOffice, h, ih]

theorem formattedOffice_cases (toLower : String → String) (Offices : List String)
    (s : String) :
    (∃ pre office post, Offices = pre ++ office :: post ∧
        (∀ o ∈ pre, toLower o ≠ trimSpace (toLower s)) ∧
        toLower office = trimSpace (toLower s) ∧
        formattedOffice toLower Offices s = office) ∨
      ((∀ o ∈ Offices, toLower o ≠ trimSpace (toLower s)) ∧
        formattedOffice toLower Offices s = "Unknown") := by
  induction Offices with
  | nil => right; exact ⟨by simp, rfl⟩
  | cons o rest ih =>
    by_cases ho : toLower o = trimSpace (toLower s)
    · left
      exact ⟨[], o, rest, rfl, by simp, ho, by simp [formattedOffice, ho]⟩
    · rcases ih with ⟨pre, office, post, hsplit, hpre, hoff, hres⟩ | ⟨hnone, hres⟩
      · left
        refine ⟨o :: pre, office, post, by simp [hsplit], ?_, hoff, ?_⟩
        · intro x hx
          rcases List.mem_cons.mp hx with rfl | hx
          · exact ho
          · exact hpre x hx
        · simp only [formattedOffice, if_neg ho, hres]
      · right
        refine ⟨?_, by simp only [formattedOffice, if_neg ho, hres]⟩
        intro x hx
        rcases List.mem_cons.mp hx with rfl | hx
        · exact ho
        · exact hnone x hx

/-- C5: `formattedOffice` returns the first entry of the catalog whose
lower-cased form is the lower-cased and then trimmed input, in the catalog's
own spelling, and the literal "Unknown" when no entry matches; for every
catalog the inputs "denver", "DENVER" and " Denver " have the same value, which
for a catalog that contains "Denver" is an entry spelled like "denver" up to
case. -/
theorem formattedOffice_first_match (toLower : String → String) (Offices : List String)
    (s : String) :
    ((∃ pre office post, Offices = pre ++ office :: post ∧
        (∀ o ∈ pre, toLower o ≠ trimSpace (toLower s)) ∧
        toLower office = trimSpace (toLower s) ∧
        formattedOffice toLower Offices s = office) ∨
      ((∀ o ∈ Offices, toLower o ≠ trimSpace (toLower s)) ∧
        formattedOffice toLower Offices s = "Unknown")) ∧
    (∀ catalog : List String,
      formattedOffice toLowerASCII catalog "denver" =
        formattedOffice toLowerASCII catalog "DENVER" ∧
      formattedOffice toLowerASCII catalog "DENVER" =
        formattedOffice toLowerASCII catalog " Denver " ∧
      ("Denver" ∈ catalog →
        formattedOffice toLowerASCII catalog "denver" ∈ catalog ∧
        toLowerASCII (formattedOffice toLowerASCII catalog "denver") = "denver")) := by
  refine ⟨formattedOffice_cases toLower Offices s, ?_⟩
  intro catalog
  refine ⟨formattedOffice_congr _ _ _ _ (by decide), formattedOffice_congr _ _ _ _ (by decide),
    ?_⟩
  intro hmem
  have hkey : trimSpace (toLowerASCII "denver") = "denver" := by decide
  rcases formattedOffice_cases toLowerASCII catalog "denver" with
    ⟨pre, office, post, hsplit, _, hoff, hres⟩ | ⟨hnone, _⟩
  · rw [hres]
    exact ⟨by rw [hsplit]; simp, by rw [hoff, hkey]⟩
  · exact absurd (by decide) (hnone "Denver" hmem)

/-- C6 as stated fails: in the catalog of "OC" and "unknown" the input "Mars"
falls back to "Unknown", and "Unknown" is then resolved to the entry
"unknown". -/
theorem formattedOffice_not_idempotent :
    formattedOffice toLowerASCII ["OC", "unknown"] "Mars" = "Unknown" ∧
    formattedOffice toLowerASCII ["OC", "unknown"]
      (formattedOffice toLowerASCII ["OC", "unknown"] "Mars") = "unknown" ∧
    formattedOffice toLowerASCII ["OC", "unknown"]
      (formattedOffice toLowerASCII ["OC", "unknown"] "Mars") ≠
        formattedOffice toLowerASCII ["OC", "unknown"] "Mars" := by
  decide

/-- C6 (as amended): `formattedOffice (formattedOffice s) = formattedOffice s`
whenever `s` matches an entry of the catalog, and in the fall-back case whenever
no entry of the catalog lower-cases to the lower-cased "Unknown" or, more
generally, `formattedOffice "Unknown"` is "Unknown" itself. -/
theorem formattedOffice_idempotent (toLower : String → String) (Offices : List String)
    (s : String)
    (h : (∃ o ∈ Offices, toLower o = trimSpace (toLower s)) ∨
      (∀ o ∈ Offices, toLower o ≠ trimSpace (toLower "Unknown")) ∨
      formattedOffice toLower Offices "Unknown" = "Unknown") :
    formattedOffice toLower Offices (formattedOffice toLower Offices s) =
      formattedOffice toLower Offices s := by
  rcases formattedOffice_cases toLower Offices s with
    ⟨pre, office, post, hsplit, hpre, hoff, hres⟩ | ⟨hnone, hres⟩
  · rw [hres]
    have hkey : trimSpace (toLower office) = trimSpace (toLower s) := by
      rw [hoff, trimSpace_idempotent]
    rw [formattedOffice_congr toLower Offices office s hkey, hres]
  · rw [hres]
    rcases h with ⟨o, ho, hm⟩ | hno | hU
    · exact absurd hm (hnone o ho)
    · rcases formattedOffice_cases toLower Offices "Unknown" with
        ⟨pre, office, post, hsplit, _, hoff, _⟩ | ⟨_, hU⟩
      · exact absurd hoff (hno office (by rw [hsplit]; simp))
      · exact hU
    · exact hU

/-- Witness of the amended C6: the catalog of "OC" and "Denver"
and the input " DENVER ". -/
theorem formattedOffice_idempotent_witness :
    formattedOffice toLowerASCII ["OC", "Denver"] " DENVER " = "Denver" ∧
    formattedOffice toLowerASCII ["OC", "Denver"]
      (formattedOffice toLowerASCII ["OC", "Denver"] " DENVER ") =
        formattedOffice toLowerASCII ["OC", "Denver"] " DENVER " :=
  ⟨by decide,
    formattedOffice_idempotent toLowerASCII ["OC", "Denver"] " DENVER "
      (Or.inl ⟨"Denver", by decide, by decide⟩)⟩

/-! ## Teams -/

theorem filter_length_le_one {α β : Type} (f : α → β) (p : α → Bool) :
    ∀ l : List α, (l.map f).Nodup → (∀ a b, p a = true → p b = true → f a = f b) →
      (l.filter p).length ≤ 1 := by
  intro l
  induction l with
  | nil => intro _ _; simp
  | cons a l ih =>
    intro hl hp
    rw [List.map_cons, List.nodup_cons] at hl
    by_cases ha : p a = true
    · have hnil : l.filter p = [] := by
        rw [List.filter_eq_nil_iff]
        intro b hb hpb
        exact hl.1 (by rw [hp a b ha hpb]; exact List.mem_map_of_mem f hb)
      simp [List.filter, ha, hnil]
    · simpa [List.filter, ha] using ih hl.2 hp

theorem selectTeamIDs_length_le_one (db : Store) (n : String)
    (hnames : (db.team.map (fun r => r.name)).Nodup) : (selectTeamIDs db n).length ≤ 1 := by
  unfold selectTeamIDs
  rw [List.length_map]
  apply filter_length_le_one (fun r : TeamRow => r.name) _ db.team hnames
  intro a b ha hb
  simp only [decide_eq_true_eq] at ha hb
  rw [ha, hb]

theorem getTeamID_found (db : Store) (n : String) (c : Bool) (id : Int) (rest : List Int)
    (h : selectTeamIDs db (trimSpace n) = id :: rest) : getTeamID db n c = ((id, none), db) := by
  simp [getTeamID, h]

theorem getTeamID_create (db : Store) (n : String) (h : selectTeamIDs db (trimSpace n) = []) :
    getTeamID db n true =
      ((db.teamAutoIncrement, none),
        { db with team := db.team ++ [{ id := db.teamAutoIncrement, name := trimSpace n }],
                  teamAutoIncrement := db.teamAutoIncrement + 1 }) := by
  simp [getTeamID, h]

theorem getTeamID_missing (db : Store) (n : String) (h : selectTeamIDs db (trimSpace n) = []) :
    getTeamID db n false = ((0, some DBError.ErrNoRows), db) := by
  simp [getTeamID, h]

theorem isOnTeam_of_team (db : Store) (n : String) (u id : Int)
    (h : selectTeamIDs db n = [id]) :
    isOnTeam db n u = decide (0 < countUserTeam db id u) := by
  simp [isOnTeam, h]

theorem addTeam_of_team (db : Store) (t : String) (u id : Int)
    (h : selectTeamIDs db (trimSpace t) = [id]) :
    addTeam db t u =
      if 0 < countUserTeam db id u then (none, db)
      else (none, { db with user_team := db.user_team ++ [{ user_id := u, team_id := id }] }) := by
  unfold addTeam
  simp only [getTeamID_found db (trimSpace t) true id [] (by rw [trimSpace_idempotent]; exact h),
    isOnTeam_of_team db (trimSpace t) u id h]
  by_cases hc : 0 < countUserTeam db id u <;> simp [hc]

theorem selectTeamIDs_append (db : Store) (n : String) (row : TeamRow) (k : Int) :
    selectTeamIDs { db with team := db.team ++ [row], teamAutoIncrement := k } n =
      selectTeamIDs db n ++ (if row.name = n then [row.id] else []) := by
  unfold selectTeamIDs
  by_cases h : row.name = n <;> simp [List.filter_append, List.filter, h]

theorem countUserTeam_pos_iff (db : Store) (id u : Int) :
    0 < countUserTeam db id u ↔ ({ user_id := u, team_id := id } : UserTeamRow) ∈ db.user_team := by
  unfold countUserTeam
  rw [List.length_pos_iff_exists_mem]
  constructor
  · rintro ⟨r, hr⟩
    rw [List.mem_filter] at hr
    obtain ⟨hm, hp⟩ := hr
    simp only [decide_eq_true_eq] at hp
    obtain ⟨a, b⟩ := r
    simp only at hp
    rw [← hp.1, ← hp.2]
    exact hm
  · intro hm
    exact ⟨_, List.mem_filter.mpr ⟨hm, by simp⟩⟩

theorem countUserTeam_le_one (db : Store) (id u : Int) (hrows : db.user_team.Nodup) :
    countUserTeam db id u ≤ 1 := by
  unfold countUserTeam
  apply filter_length_le_one (fun r : UserTeamRow => r) _ db.user_team (by simpa using hrows)
  intro a b ha hb
  simp only [decide_eq_true_eq] at ha hb
  obtain ⟨a1, a2⟩ := a
  obtain ⟨b1, b2⟩ := b
  simp only at ha hb
  simp [ha.1, ha.2, hb.1, hb.2]

theorem countUserTeam_append (db : Store) (id u : Int) :
    countUserTeam { db with user_team := db.user_team ++ [{ user_id := u, team_id := id }] } id u =
      countUserTeam db id u + 1 := by
  simp [countUserTeam, List.filter_append, List.filter]

/-- What one call of `addTeam` leaves behind, from a store of unique team
names: it reports success, the team of the trimmed name exists once, the user
has a membership row for it (exactly one if the rows were distinct), and the
tables `user` and `team` keep their shape. -/
theorem addTeam_result (db : Store) (t : String) (u : Int)
    (hnames : (db.team.map (fun r => r.name)).Nodup) :
    ∃ id, (addTeam db t u).1 = none ∧
      selectTeamIDs (addTeam db t u).2 (trimSpace t) = [id] ∧
      (addTeam db t u).2.user = db.user ∧
      ((addTeam db t u).2.team.map (fun r => r.name)).Nodup ∧
      0 < countUserTeam (addTeam db t u).2 id u ∧
      (db.user_team.Nodup → countUserTeam (addTeam db t u).2 id u = 1 ∧
        (addTeam db t u).2.user_team.Nodup) := by
  -- the store once the team is resolved or created
  have key : ∀ (d : Store) (id : Int), selectTeamIDs d (trimSpace t) = [id] →
      d.user = db.user → (d.team.map (fun r => r.name)).Nodup → d.user_team = db.user_team →
      addTeam db t u = addTeam d t u →
      ∃ id, (addTeam db t u).1 = none ∧
        selectTeamIDs (addTeam db t u).2 (trimSpace t) = [id] ∧
        (addTeam db t u).2.user = db.user ∧
        ((addTeam db t u).2.team.map (fun r => r.name)).Nodup ∧
        0 < countUserTeam (addTeam db t u).2 id u ∧
        (db.user_team.Nodup → countUserTeam (addTeam db t u).2 id u = 1 ∧
          (addTeam db t u).2.user_team.Nodup) := by
    intro d id hsel huser hnd hut heq
    refine ⟨id, ?_⟩
    rw [heq, addTeam_of_team d t u id hsel]
    by_cases hc : 0 < countUserTeam d id u
    · rw [if_pos hc]
      refine ⟨rfl, hsel, huser, hnd, hc, ?_⟩
      intro hrows
      have hle := countUserTeam_le_one d id u (by rw [hut]; exact hrows)
      have hone : countUserTeam d id u = 1 := by omega
      exact ⟨hone, by rw [hut]; exact hrows⟩
    · rw [if_neg hc]
      refine ⟨rfl, hsel, huser, hnd, ?_, ?_⟩
      · show 0 < countUserTeam { d with user_team := d.user_team ++ [_] } id u
        rw [countUserTeam_append]; omega
      · intro hrows
        have hzero : countUserTeam d id u = 0 := by omega
        refine ⟨by
          show countUserTeam { d with user_team := d.user_team ++ [_] } id u = 1
          rw [countUserTeam_append, hzero], ?_⟩
        have hnot : ({ user_id := u, team_id := id } : UserTeamRow) ∉ d.user_team := by
          rw [← countUserTeam_pos_iff]; exact hc
        show (d.user_team ++ [_]).Nodup
        rw [List.nodup_append]
        refine ⟨by rw [hut]; exact hrows, by simp, ?_⟩
        intro a ha hb
        rw [List.mem_singleton] at hb
        subst hb
        exact hnot ha
  have hle := selectTeamIDs_length_le_one db (trimSpace t) hnames
  rcases hsel : selectTeamIDs db (trimSpace t) with _ | ⟨id, rest⟩
  · -- the team is created
    have hnew : ∀ r ∈ db.team, r.name ≠ trimSpace t := by
      intro r hr hname
      have : r.id ∈ selectTeamIDs db (trimSpace t) := by
        unfold selectTeamIDs
        exact List.mem_map.mpr ⟨r, List.mem_filter.mpr ⟨hr, by simpa using hname⟩, rfl⟩
      rw [hsel] at this
      exact absurd this (List.not_mem_nil _)
    apply key
      { db with team := db.team ++ [{ id := db.teamAutoIncrement, name := trimSpace t }],
                teamAutoIncrement := db.teamAutoIncrement + 1 } db.teamAutoIncrement
    · rw [selectTeamIDs_append, hsel]; simp
    · rfl
    · show ((db.team ++ [({ id := db.teamAutoIncrement, name := trimSpace t } : TeamRow)]).map
        (fun r => r.name)).Nodup
      rw [List.map_append, List.nodup_append]
      refine ⟨hnames, by simp, ?_⟩
      intro a ha hb
      simp only [List.map_cons, List.map_nil, List.mem_singleton] at hb
      subst hb
      obtain ⟨r, hr, hname⟩ := List.mem_map.mp ha
      exact hnew r hr hname
    · rfl
    · have hsel2 : selectTeamIDs db (trimSpace (trimSpace t)) = [] := by
        rw [trimSpace_idempotent]; exact hsel
      have hsel3 : selectTeamIDs
          { db with team := db.team ++ [{ id := db.teamAutoIncrement, name := trimSpace t }],
                    teamAutoIncrement := db.teamAutoIncrement + 1 }
          (trimSpace (trimSpace t)) = [db.teamAutoIncrement] := by
        rw [selectTeamIDs_append, trimSpace_idempotent, hsel]; simp
      simp only [addTeam, getTeamID_create db (trimSpace t) hsel2,
        getTeamID_found _ (trimSpace t) true db.teamAutoIncrement [] hsel3,
        trimSpace_idempotent]
  · -- the team exists
    have hrest : rest = [] := by
      rw [hsel] at hle
      simp only [List.length_cons] at hle
      exact List.length_eq_zero.mp (by omega)
    subst hrest
    exact key db id hsel rfl hnames rfl rfl

theorem removeTeam_of_team (db : Store) (t : String) (u id : Int) (rest : List Int)
    (h : selectTeamIDs db (trimSpace t) = id :: rest) :
    removeTeam db t u =
      (none, { db with user_team :=
        db.user_team.filter (fun r => ¬ (r.user_id = u ∧ r.team_id = id)) }) := by
  simp only [removeTeam,
    getTeamID_found db (trimSpace t) false id rest (by rw [trimSpace_idempotent]; exact h)]

theorem removeTeam_of_no_team (db : Store) (t : String) (u : Int)
    (h : selectTeamIDs db (trimSpace t) = []) :
    removeTeam db t u = (some DBError.ErrNoRows, db) := by
  simp only [removeTeam,
    getTeamID_missing db (trimSpace t) (by rw [trimSpace_idempotent]; exact h)]

theorem selectTeamIDs_eq_nil_iff (db : Store) (n : String) :
    selectTeamIDs db n = [] ↔ ∀ r ∈ db.team, r.name ≠ n := by
  unfold selectTeamIDs
  rw [List.map_eq_nil_iff, List.filter_eq_nil_iff]
  simp

theorem mem_selectTeamIDs (db : Store) (n : String) (id : Int) :
    id ∈ selectTeamIDs db n ↔ ({ id := id, name := n } : TeamRow) ∈ db.team := by
  unfold selectTeamIDs
  rw [List.mem_map]
  constructor
  · rintro ⟨r, hr, rfl⟩
    rw [List.mem_filter] at hr
    obtain ⟨a, b⟩ := r
    have hb : b = n := by simpa using hr.2
    subst hb
    exact hr.1
  · intro h
    exact ⟨_, List.mem_filter.mpr ⟨h, by simp⟩, rfl⟩

theorem contains_iff_mem (needle : String) (haystack : List String) :
    contains needle haystack = true ↔ needle ∈ haystack := by
  induction haystack with
  | nil => simp [contains]
  | cons s rest ih =>
    by_cases h : s = needle
    · simp [contains, h]
    · have h2 : ¬ needle = s := fun e => h e.symm
      simp [contains, h, h2, ih]

theorem mem_getUserTeams (db : Store) (email n : String) :
    n ∈ getUserTeams db email ↔
      ∃ tr ∈ db.team, tr.name = n ∧ ∃ ut ∈ db.user_team, ut.team_id = tr.id ∧
        ∃ usr ∈ db.user, ut.user_id = usr.id ∧ usr.email = email := by
  unfold getUserTeams
  simp only [List.mem_map, List.mem_filter, decide_eq_true_eq, List.any_eq_true]
  constructor
  · rintro ⟨tr, ⟨htr, ut, ⟨hut, usr, husr, h1, h2⟩, hid⟩, hname⟩
    exact ⟨tr, htr, hname, ut, hut, hid, usr, husr, h1, h2⟩
  · rintro ⟨tr, htr, hname, ut, hut, hid, usr, husr, h1, h2⟩
    exact ⟨tr, ⟨htr, ut, ⟨hut, usr, husr, h1, h2⟩, hid⟩, hname⟩

/-- C7: from a store in which team names are unique and no membership row is
repeated, two calls of `addTeam t u` in sequence both report success, the
second call returns the store of the first unchanged, and the user has exactly
one membership row for the one team named `trimSpace t`. -/
theorem addTeam_twice (db : Store) (t : String) (u : Int)
    (hnames : (db.team.map (fun r => r.name)).Nodup) (hrows : db.user_team.Nodup) :
    (addTeam db t u).1 = none ∧
    addTeam (addTeam db t u).2 t u = (none, (addTeam db t u).2) ∧
    ∃ id, selectTeamIDs (addTeam (addTeam db t u).2 t u).2 (trimSpace t) = [id] ∧
      countUserTeam (addTeam (addTeam db t u).2 t u).2 id u = 1 := by
  obtain ⟨id, hok, hsel, _, _, hpos, hone⟩ := addTeam_result db t u hnames
  have hsecond : addTeam (addTeam db t u).2 t u = (none, (addTeam db t u).2) := by
    rw [addTeam_of_team _ t u id hsel, if_pos hpos]
  refine ⟨hok, hsecond, id, ?_, ?_⟩
  · rw [hsecond]; exact hsel
  · rw [hsecond]; exact (hone hrows).1

/-- Witness of C7: the user 1 joins " my_team " twice in a store
without teams. -/
theorem addTeam_twice_witness :
    (addTeam twoDayStore " my_team " 1).2.team = [{ id := 1, name := "my_team" }] ∧
    (addTeam twoDayStore " my_team " 1).2.user_team = [{ user_id := 1, team_id := 1 }] ∧
    addTeam (addTeam twoDayStore " my_team " 1).2 " my_team " 1 =
      (none, (addTeam twoDayStore " my_team " 1).2) :=
  ⟨by decide, by decide,
    (addTeam_twice twoDayStore " my_team " 1 (by decide) (by decide)).2.1⟩

theorem removeTeam_of_member (d : Store) (t email : String) (u id : Int)
    (hsel : selectTeamIDs d (trimSpace t) = [id])
    (hemail : ∀ usr ∈ d.user, usr.email = email → usr.id = u) :
    (removeTeam d t u).1 = none ∧
    contains (trimSpace t) (getUserTeams (removeTeam d t u).2 email) = false ∧
    isOnTeam (removeTeam d t u).2 (trimSpace t) u = false := by
  rw [removeTeam_of_team d t u id [] hsel]
  have hsel2 : selectTeamIDs
      { d with user_team := d.user_team.filter (fun r => ¬ (r.user_id = u ∧ r.team_id = id)) }
      (trimSpace t) = [id] := hsel
  refine ⟨rfl, ?_, ?_⟩
  · rw [Bool.eq_false_iff]
    intro hc
    rw [contains_iff_mem, mem_getUserTeams] at hc
    obtain ⟨tr, htr, hname, ut, hut, htid, usr2, husr2, huid, hmail2⟩ := hc
    have htrid : tr.id = id := by
      have hmem : tr.id ∈ selectTeamIDs d (trimSpace t) := by
        rw [mem_selectTeamIDs]
        obtain ⟨a, b⟩ := tr
        simp only at hname
        subst hname
        exact htr
      rw [hsel] at hmem
      simpa using hmem
    have hu2 : usr2.id = u := hemail usr2 husr2 hmail2
    have hut2 := (List.mem_filter.mp hut).2
    simp only [decide_eq_true_eq] at hut2
    exact hut2 ⟨by rw [huid, hu2], by rw [htid, htrid]⟩
  · rw [isOnTeam_of_team _ _ u id hsel2]
    have hz : ¬ 0 < countUserTeam
        { d with user_team := d.user_team.filter (fun r => ¬ (r.user_id = u ∧ r.team_id = id)) }
        id u := by
      rw [countUserTeam_pos_iff]
      intro hmem
      have := (List.mem_filter.mp hmem).2
      simp at this
    simpa using hz

/-- C8 (as amended): in a store of unique team names where the user `u` has
the email and nobody else has it, after `addTeam t u` (which reports success) the list of
`getUserTeams` for the email contains `trimSpace t` and `isOnTeam` holds; after
`removeTeam t u` on the resulting store, which reports success, the list does
not contain it and `isOnTeam` fails. -/
theorem addTeam_then_removeTeam (db : Store) (t email : String) (u : Int)
    (hnames : (db.team.map (fun r => r.name)).Nodup)
    (huser : ∃ usr ∈ db.user, usr.id = u ∧ usr.email = email)
    (hemail : ∀ usr ∈ db.user, usr.email = email → usr.id = u) :
    (addTeam db t u).1 = none ∧
    contains (trimSpace t) (getUserTeams (addTeam db t u).2 email) = true ∧
    isOnTeam (addTeam db t u).2 (trimSpace t) u = true ∧
    (removeTeam (addTeam db t u).2 t u).1 = none ∧
    contains (trimSpace t) (getUserTeams (removeTeam (addTeam db t u).2 t u).2 email) = false ∧
    isOnTeam (removeTeam (addTeam db t u).2 t u).2 (trimSpace t) u = false := by
  obtain ⟨id, hok, hsel, husers, _, hpos, _⟩ := addTeam_result db t u hnames
  obtain ⟨usr, husr, hid, hmail⟩ := huser
  have hteam : ({ id := id, name := trimSpace t } : TeamRow) ∈ (addTeam db t u).2.team := by
    rw [← mem_selectTeamIDs, hsel]; simp
  refine ⟨hok, ?_, ?_,
    removeTeam_of_member (addTeam db t u).2 t email u id hsel (by rw [husers]; exact hemail)⟩
  · rw [contains_iff_mem, mem_getUserTeams]
    refine ⟨_, hteam, rfl, _, (countUserTeam_pos_iff _ id u).mp hpos, rfl, usr, ?_, hid.symm,
      hmail⟩
    rw [husers]; exact husr
  · rw [isOnTeam_of_team _ _ u id hsel]; simpa using hpos

/-- Witness of C8: the user 1 of the two-day store joins
and leaves "my_team". -/
theorem addTeam_then_removeTeam_witness :
    getUserTeams (addTeam twoDayStore "my_team" 1).2 "oc_1@sendgrid.com" = ["my_team"] ∧
    getUserTeams (removeTeam (addTeam twoDayStore "my_team" 1).2 "my_team" 1).2
      "oc_1@sendgrid.com" = [] ∧
    contains (trimSpace "my_team")
      (getUserTeams (addTeam twoDayStore "my_team" 1).2 "oc_1@sendgrid.com") = true :=
  ⟨by decide, by decide,
    (addTeam_then_removeTeam twoDayStore "my_team" "oc_1@sendgrid.com" 1 (by decide)
      ⟨_, List.mem_singleton.mpr rfl, rfl, rfl⟩ (by decide)).2.1⟩

/-- C9 as stated fails: in the scenario store, where no team exists and
`addTeam` was never called, `removeTeam "my_team" 3` reports `ErrNoRows`. -/
theorem removeTeam_unknown_team_fails :
    scenarioStore.team = [] ∧ scenarioStore.user_team = [] ∧
    removeTeam scenarioStore "my_team" 3 = (some DBError.ErrNoRows, scenarioStore) ∧
    (removeTeam scenarioStore "my_team" 3).1 ≠ none := by
  decide

/-- C9 (as amended): when the user has no membership row for a team named
`trimSpace t`, `removeTeam t u` leaves the store unchanged; it reports success
if a team of that name exists and `ErrNoRows` if none does. -/
theorem removeTeam_without_membership (db : Store) (t : String) (u : Int)
    (hno : ∀ tr ∈ db.team, tr.name = trimSpace t →
      ({ user_id := u, team_id := tr.id } : UserTeamRow) ∉ db.user_team) :
    (removeTeam db t u).2 = db ∧
    ((∃ tr ∈ db.team, tr.name = trimSpace t) → (removeTeam db t u).1 = none) ∧
    ((∀ tr ∈ db.team, tr.name ≠ trimSpace t) →
      (removeTeam db t u).1 = some DBError.ErrNoRows) := by
  rcases hsel : selectTeamIDs db (trimSpace t) with _ | ⟨id, rest⟩
  · rw [removeTeam_of_no_team db t u hsel]
    refine ⟨rfl, ?_, fun _ => rfl⟩
    rintro ⟨tr, htr, hname⟩
    exact absurd hname ((selectTeamIDs_eq_nil_iff db (trimSpace t)).mp hsel tr htr)
  · rw [removeTeam_of_team db t u id rest hsel]
    have hmem : ({ id := id, name := trimSpace t } : TeamRow) ∈ db.team := by
      rw [← mem_selectTeamIDs, hsel]; simp
    have hkeep : db.user_team.filter (fun r => ¬ (r.user_id = u ∧ r.team_id = id)) =
        db.user_team := by
      rw [List.filter_eq_self]
      intro r hr
      simp only [decide_eq_true_eq]
      rintro ⟨h1, h2⟩
      apply hno _ hmem rfl
      obtain ⟨a, b⟩ := r
      simp only at h1 h2
      subst h1; subst h2
      exact hr
    refine ⟨by simp only [hkeep], fun _ => rfl, ?_⟩
    intro hnone
    exact absurd rfl (hnone _ hmem)

/-- Witness of the amended C9: after user 1 joined "my_team",
user 2, who never did, removes it. -/
theorem removeTeam_without_membership_witness :
    (removeTeam (addTeam twoDayStore "my_team" 1).2 "my_team" 2).2 =
      (addTeam twoDayStore "my_team" 1).2 ∧
    removeTeam (addTeam twoDayStore "my_team" 1).2 "my_team" 2 =
      (none, (addTeam twoDayStore "my_team" 1).2) :=
  ⟨(removeTeam_without_membership (addTeam twoDayStore "my_team" 1).2 "my_team" 2
      (by decide)).1, by decide⟩

/-- C10: when no team named `trimSpace t` exists, `getTeamID` without creation
and `removeTeam t u` fail with `ErrNoRows` and return the store as it was, no
team created and no membership row deleted; when a team of that name exists and
the user has no membership row for it, `removeTeam t u` reports success and
returns the store as it was. -/
theorem removeTeam_notFound_or_unchanged (db : Store) (t : String) (u : Int) :
    ((∀ tr ∈ db.team, tr.name ≠ trimSpace t) →
      getTeamID db (trimSpace t) false = ((0, some DBError.ErrNoRows), db) ∧
      removeTeam db t u = (some DBError.ErrNoRows, db)) ∧
    ((∃ tr ∈ db.team, tr.name = trimSpace t) →
      (∀ tr ∈ db.team, tr.name = trimSpace t →
        ({ user_id := u, team_id := tr.id } : UserTeamRow) ∉ db.user_team) →
      removeTeam db t u = (none, db)) := by
  constructor
  · intro hnone
    have hsel := (selectTeamIDs_eq_nil_iff db (trimSpace t)).mpr hnone
    exact ⟨getTeamID_missing db (trimSpace t) (by rw [trimSpace_idempotent]; exact hsel),
      removeTeam_of_no_team db t u hsel⟩
  · rintro ⟨tr, htr, hname⟩ hno
    rcases hsel : selectTeamIDs db (trimSpace t) with _ | ⟨id, rest⟩
    · exact absurd hname ((selectTeamIDs_eq_nil_iff db (trimSpace t)).mp hsel tr htr)
    · rw [removeTeam_of_team db t u id rest hsel]
      have hmem : ({ id := id, name := trimSpace t } : TeamRow) ∈ db.team := by
        rw [← mem_selectTeamIDs, hsel]; simp
      have hkeep : db.user_team.filter (fun r => ¬ (r.user_id = u ∧ r.team_id = id)) =
          db.user_team := by
        rw [List.filter_eq_self]
        intro r hr
        simp only [decide_eq_true_eq]
        rintro ⟨h1, h2⟩
        apply hno _ hmem rfl
        obtain ⟨a, b⟩ := r
        simp only at h1 h2
        subst h1; subst h2
        exact hr
      simp only [hkeep]

/-- Witness of C10: " no_such_team " in the
two-day store, which has no team. -/
theorem removeTeam_notFound_or_unchanged_witness :
    removeTeam twoDayStore " no_such_team " 1 = (some DBError.ErrNoRows, twoDayStore) :=
  ((removeTeam_notFound_or_unchanged twoDayStore " no_such_team " 1).1 (by decide)).2


/-! ## Reps of a user -/

theorem wrapInt_range (x : Int) : -(2 ^ 63) ≤ wrapInt x ∧ wrapInt x < 2 ^ 63 := by
  unfold wrapInt
  norm_num
  omega

theorem wrapInt_wrapInt_add (a b : Int) : wrapInt (wrapInt a + b) = wrapInt (a + b) := by
  unfold wrapInt
  norm_num
  omega

theorem ExerciseCounts.get_nil (k : String) : ExerciseCounts.get [] k = 0 := rfl

theorem ExerciseCounts.get_cons (k₀ : String) (v : Int) (m : ExerciseCounts) (k : String) :
    ExerciseCounts.get ((k₀, v) :: m) k = if k₀ = k then v else ExerciseCounts.get m k := by
  by_cases h : k₀ = k
  · simp [ExerciseCounts.get, List.find?, h]
  · have hb : (k₀ == k) = false := by simpa using h
    simp only [ExerciseCounts.get, List.find?, hb, if_neg h]

theorem ExerciseCounts.get_add (m : ExerciseCounts) (k k' : String) (c : Int) :
    ExerciseCounts.get (ExerciseCounts.add m k c) k' =
      if k = k' then wrapInt (ExerciseCounts.get m k + c) else ExerciseCounts.get m k' := by
  induction m with
  | nil =>
    simp only [ExerciseCounts.add, ExerciseCounts.get_cons, ExerciseCounts.get_nil]
  | cons e m ih =>
    obtain ⟨k₀, v⟩ := e
    by_cases h0 : k₀ = k
    · subst h0
      simp only [ExerciseCounts.add, if_true, ExerciseCounts.get_cons]
      by_cases h : k₀ = k' <;> simp [h]
    · simp only [ExerciseCounts.add, if_neg h0, ExerciseCounts.get_cons, ih]
      by_cases h : k = k'
      · subst h
        simp [h0]
      · by_cases h1 : k₀ = k' <;> simp [h, h1]

theorem foldl_addToBuckets (rows : List (String × Int × Int)) :
    ∀ repDatas : List RepData,
      rows.foldl (fun repDatas row => addToBuckets repDatas row.1 row.2.1 row.2.2) repDatas =
        repDatas.map (fun rd =>
          { rd with ExerciseCounts := bucketCounts rd.Date rows rd.ExerciseCounts }) := by
  induction rows with
  | nil =>
    intro repDatas
    simp [bucketCounts]
  | cons row rows ih =>
    intro repDatas
    rw [List.foldl_cons, ih, addToBuckets, List.map_map]
    apply List.map_congr_left
    intro rd _
    by_cases h : rd.Date = monthDayLabel row.2.2
    · simp only [Function.comp, bucketCounts, List.foldl_cons, ne_eq, h, not_true_eq_false,
        if_false]
    · simp only [Function.comp, bucketCounts, List.foldl_cons, ne_eq, h, not_false_eq_true,
        if_true]

/-- The sum of the counts of the rows that the bucket `label` takes for one
exercise. -/
theorem bucketCounts_get (label exercise : String) (rows : List (String × Int × Int)) :
    ∀ m : ExerciseCounts,
      wrapInt (ExerciseCounts.get (bucketCounts label rows m) exercise) =
        wrapInt (ExerciseCounts.get m exercise +
          ((rows.filter (fun row =>
            decide (label = monthDayLabel row.2.2 ∧ row.1 = exercise))).map
              (fun row => row.2.1)).sum) := by
  induction rows with
  | nil => intro m; simp [bucketCounts]
  | cons row rows ih =>
    intro m
    have hstep : bucketCounts label (row :: rows) m =
        bucketCounts label rows
          (if label ≠ monthDayLabel row.2.2 then m else ExerciseCounts.add m row.1 row.2.1) := by
      simp [bucketCounts, List.foldl_cons]
    rw [hstep, ih]
    by_cases hl : label = monthDayLabel row.2.2
    · rw [if_neg (not_not.mpr hl), ExerciseCounts.get_add]
      by_cases he : row.1 = exercise
      · rw [if_pos he, List.filter_cons_of_pos (by simp [hl, he]), List.map_cons, List.sum_cons,
          wrapInt_wrapInt_add, he, add_assoc]
      · rw [if_neg he, List.filter_cons_of_neg (by simp [he])]
    · rw [if_pos hl, List.filter_cons_of_neg (by simp [hl])]

theorem bucketCounts_get_range (label exercise : String) (rows : List (String × Int × Int)) :
    ∀ m : ExerciseCounts,
      (-(2 ^ 63) ≤ ExerciseCounts.get m exercise ∧ ExerciseCounts.get m exercise < 2 ^ 63) →
      -(2 ^ 63) ≤ ExerciseCounts.get (bucketCounts label rows m) exercise ∧
        ExerciseCounts.get (bucketCounts label rows m) exercise < 2 ^ 63 := by
  induction rows with
  | nil => intro m hm; simpa [bucketCounts] using hm
  | cons row rows ih =>
    intro m hm
    have hstep : bucketCounts label (row :: rows) m =
        bucketCounts label rows
          (if label ≠ monthDayLabel row.2.2 then m else ExerciseCounts.add m row.1 row.2.1) := by
      simp [bucketCounts, List.foldl_cons]
    rw [hstep]
    apply ih
    by_cases hl : label = monthDayLabel row.2.2
    · rw [if_neg (not_not.mpr hl), ExerciseCounts.get_add]
      by_cases he : row.1 = exercise
      · rw [if_pos he]; exact wrapInt_range _
      · rw [if_neg he]; exact hm
    · rw [if_pos hl]; exact hm

theorem selectUserReps_of_user (db : Store) (email : String) (usr : UserRow)
    (StartDate EndDate : Int)
    (huser : db.user.filter (fun u => decide (u.email = email)) = [usr]) :
    selectUserReps db email StartDate EndDate =
      (db.reps.filter (fun r =>
        decide (r.user_id = usr.id ∧ r.created_at > formatDate StartDate ∧
          r.created_at < formatDate EndDate))).map
        (fun r => (r.exercise, r.count, r.created_at)) := by
  unfold selectUserReps
  have hrow : ∀ r : RepsRow,
      (db.user.filter (fun u =>
        decide (r.user_id = u.id ∧ u.email = email ∧
          r.created_at > formatDate StartDate ∧ r.created_at < formatDate EndDate))) =
      if r.user_id = usr.id ∧ r.created_at > formatDate StartDate ∧
          r.created_at < formatDate EndDate then [usr] else [] := by
    intro r
    have hsplit : (db.user.filter (fun u =>
        decide (r.user_id = u.id ∧ u.email = email ∧
          r.created_at > formatDate StartDate ∧ r.created_at < formatDate EndDate))) =
        (db.user.filter (fun u => decide (u.email = email))).filter (fun u =>
          decide (r.user_id = u.id ∧
            r.created_at > formatDate StartDate ∧ r.created_at < formatDate EndDate)) := by
      rw [List.filter_filter]
      apply List.filter_congr
      intro u _
      simp only [Bool.decide_and, Bool.and_eq_true, decide_eq_true_eq]
      by_cases h1 : r.user_id = u.id <;> by_cases h2 : u.email = email <;> simp [h1, h2]
    rw [hsplit, huser]
    by_cases hc : r.user_id = usr.id ∧ r.created_at > formatDate StartDate ∧
        r.created_at < formatDate EndDate
    · rw [if_pos hc]; simp [List.filter, hc]
    · rw [if_neg hc]; simp [List.filter, hc]
  simp only [hrow]
  induction db.reps with
  | nil => rfl
  | cons r rs ih =>
    rw [List.flatMap_cons, ih]
    by_cases hc : r.user_id = usr.id ∧ r.created_at > formatDate StartDate ∧
        r.created_at < formatDate EndDate
    · rw [if_pos hc, List.filter_cons_of_pos (by simpa using hc)]; rfl
    · rw [if_neg hc, List.filter_cons_of_neg (by simpa using hc)]; rfl

theorem formatDate_midnight (z : Int) : formatDate (day24h * z) = day24h * z := by
  unfold formatDate
  rw [Int.mul_ediv_cancel_left z (by decide), mul_comm]

theorem monthDayLabel_of_day (t : Int) :
    monthDayLabel t = monthDayLabel (day24h * (t / day24h)) := by
  unfold monthDayLabel
  rw [Int.mul_ediv_cancel_left (t / day24h) (by decide)]

theorem skeleton_label_inj (ds de : Int) (h : ds ≤ de)
    (hlabels : ((initRepData (day24h * ds) (day24h * de)).map (fun rd => rd.Date)).Nodup)
    (i j : Nat) (hi : i < (de - ds).toNat + 1) (hj : j < (de - ds).toNat + 1)
    (heq : monthDayLabel (day24h * (ds + i)) = monthDayLabel (day24h * (ds + j))) : i = j := by
  rw [initRepData_days ds de h, List.map_map] at hlabels
  exact List.inj_on_of_nodup_map hlabels (List.mem_range.mpr hi) (List.mem_range.mpr hj) heq

/-- The rows that the bucket of the day `ds + i` takes are the reps of that
day. -/
theorem bucket_rows_iff (ds de : Int) (h : ds ≤ de)
    (hlabels : ((initRepData (day24h * ds) (day24h * de)).map (fun rd => rd.Date)).Nodup)
    (i : Nat) (hi : (i : Int) < de - ds) (t : Int) :
    (t > formatDate (day24h * ds) ∧ t < formatDate (day24h * de) ∧
        monthDayLabel (day24h * (ds + i)) = monthDayLabel t) ↔
      (t / day24h = ds + i ∧ day24h * ds < t) := by
  rw [formatDate_midnight, formatDate_midnight]
  have hdiv : day24h * (t / day24h) ≤ t ∧ t < day24h * (t / day24h) + day24h := by
    unfold day24h; omega
  constructor
  · rintro ⟨h1, h2, h3⟩
    refine ⟨?_, h1⟩
    have hlo : ds ≤ t / day24h := by unfold day24h at *; omega
    have hhi : t / day24h < de := by unfold day24h at *; omega
    obtain ⟨j, hj⟩ : ∃ j : Nat, t / day24h = ds + j :=
      ⟨(t / day24h - ds).toNat, by omega⟩
    rw [monthDayLabel_of_day t, hj] at h3
    have hij := skeleton_label_inj ds de h hlabels i j (by omega) (by omega) h3
    rw [hj, hij]
  · rintro ⟨h1, h2⟩
    refine ⟨h2, ?_, ?_⟩
    · unfold day24h at *; omega
    · rw [monthDayLabel_of_day t, h1]

/-- C2, at the input of its own scenario: with 10 pushups on day 1 and 5 on
day 2 of the window from 2016-11-01 to 2016-11-02, `initRepData` makes the
bucket of day 2, but the query of `getUserReps` selects only the row of day 1
(it keeps `created_at` before midnight at the start of the end date), and the
bucket of day 2 comes back empty where the claim has it hold the 5 pushups. -/
theorem getUserReps_two_day_window :
    formatDate 1478044800 = 1478044800 ∧
    selectUserReps twoDayStore "oc_1@sendgrid.com" 1477958400 1478044800 =
      [("pushups", 10, 1478001600)] ∧
    getUserReps twoDayStore "oc_1@sendgrid.com" 1477958400 1478044800 =
      [{ Date := "11-1", ExerciseCounts := [("pushups", 10)] },
       { Date := "11-2", ExerciseCounts := [] }] ∧
    getUserReps twoDayStore "oc_1@sendgrid.com" 1477958400 1478044800 ≠
      [{ Date := "11-1", ExerciseCounts := [("pushups", 10)] },
       { Date := "11-2", ExerciseCounts := [("pushups", 5)] }] := by
  decide

/-- The days before the end date: for a user who has the one row of table
`user` with the email, and a window of two midnights `start ≤ end` whose
skeleton carries pairwise distinct labels, `getUserReps` returns the buckets of
the day skeleton of the window, and in the bucket of every day before the end
date the count of an exercise is the sum of the counts of the user's reps for
it that were created on that calendar day, later than the start instant of the
window (the sum being an `int`). -/
theorem getUserReps_day_bucket (db : Store) (email : String) (usr : UserRow) (ds de : Int)
    (i : Nat) (exercise : String)
    (hwin : ds ≤ de)
    (huser : db.user.filter (fun u => decide (u.email = email)) = [usr])
    (hlabels : ((initRepData (day24h * ds) (day24h * de)).map (fun rd => rd.Date)).Nodup)
    (hi : (i : Int) < de - ds)
    (hsum : -(2 ^ 63) ≤ repsOnDay db usr.id exercise (ds + i) (day24h * ds) ∧
      repsOnDay db usr.id exercise (ds + i) (day24h * ds) < 2 ^ 63) :
    (getUserReps db email (day24h * ds) (day24h * de)).map (fun rd => rd.Date) =
      (initRepData (day24h * ds) (day24h * de)).map (fun rd => rd.Date) ∧
    ∃ rd, (getUserReps db email (day24h * ds) (day24h * de))[i]? = some rd ∧
      rd.Date = monthDayLabel (day24h * (ds + i)) ∧
      ExerciseCounts.get rd.ExerciseCounts exercise =
        repsOnDay db usr.id exercise (ds + i) (day24h * ds) := by
  unfold getUserReps
  rw [foldl_addToBuckets]
  refine ⟨by rw [List.map_map]; rfl, ?_⟩
  have hidx : i < (de - ds).toNat + 1 := by omega
  refine ⟨{ Date := monthDayLabel (day24h * (ds + i)),
            ExerciseCounts := bucketCounts (monthDayLabel (day24h * (ds + i)))
              (selectUserReps db email (day24h * ds) (day24h * de)) [] }, ?_, rfl, ?_⟩
  · rw [initRepData_days ds de hwin, List.map_map, List.getElem?_map, List.getElem?_range hidx]
    rfl
  · show ExerciseCounts.get (bucketCounts (monthDayLabel (day24h * (ds + i)))
      (selectUserReps db email (day24h * ds) (day24h * de)) []) exercise = _
    have hrange := bucketCounts_get_range (monthDayLabel (day24h * (ds + i))) exercise
      (selectUserReps db email (day24h * ds) (day24h * de)) []
      (by rw [ExerciseCounts.get_nil]; norm_num)
    have hget := bucketCounts_get (monthDayLabel (day24h * (ds + i))) exercise
      (selectUserReps db email (day24h * ds) (day24h * de)) []
    rw [wrapInt_of_range _ hrange.1 hrange.2, ExerciseCounts.get_nil, zero_add] at hget
    have hrows : ((selectUserReps db email (day24h * ds) (day24h * de)).filter (fun row =>
        decide (monthDayLabel (day24h * (ds + i)) = monthDayLabel row.2.2 ∧
          row.1 = exercise))).map (fun row => row.2.1) =
        (db.reps.filter (fun r =>
          decide (r.user_id = usr.id ∧ r.exercise = exercise ∧
            r.created_at / day24h = ds + i ∧ day24h * ds < r.created_at))).map
          (fun r => r.count) := by
      rw [selectUserReps_of_user db email usr _ _ huser, List.filter_map, List.map_map,
        List.filter_filter]
      have hpred : ∀ r ∈ db.reps,
          (((fun row : String × Int × Int =>
              decide (monthDayLabel (day24h * (ds + i)) = monthDayLabel row.2.2 ∧
                row.1 = exercise)) ∘
            (fun r : RepsRow => (r.exercise, r.count, r.created_at))) r &&
            decide (r.user_id = usr.id ∧ r.created_at > formatDate (day24h * ds) ∧
              r.created_at < formatDate (day24h * de))) =
          decide (r.user_id = usr.id ∧ r.exercise = exercise ∧
            r.created_at / day24h = ds + i ∧ day24h * ds < r.created_at) := by
        intro r _
        have hb := bucket_rows_iff ds de hwin hlabels i hi r.created_at
        rw [Bool.eq_iff_iff]
        simp only [Function.comp, Bool.and_eq_true, decide_eq_true_eq]
        constructor
        · rintro ⟨⟨h3, h4⟩, h0, h1, h2⟩
          have := hb.mp ⟨h1, h2, h3⟩
          exact ⟨h0, h4, this.1, this.2⟩
        · rintro ⟨h0, h4, h5, h6⟩
          have := hb.mpr ⟨h5, h6⟩
          exact ⟨⟨this.2.2, h4⟩, h0, this.1, this.2.1⟩
      rw [List.filter_congr hpred]
      rfl
    rw [hrows] at hget
    rw [hget]
    exact wrapInt_of_range _ hsum.1 hsum.2

/-- The bucket of 2016-11-01 in the two-day window of the scenario holds the 10
pushups of that day. -/
theorem getUserReps_day_bucket_witness :
    repsOnDay twoDayStore 1 "pushups" (17106 + (0 : Nat)) (day24h * 17106) = 10 ∧
    ∃ rd, (getUserReps twoDayStore "oc_1@sendgrid.com" (day24h * 17106) (day24h * 17107))[0]? =
        some rd ∧
      rd.Date = monthDayLabel (day24h * (17106 + (0 : Nat))) ∧
      ExerciseCounts.get rd.ExerciseCounts "pushups" =
        repsOnDay twoDayStore 1 "pushups" (17106 + (0 : Nat)) (day24h * 17106) :=
  ⟨by decide,
    (getUserReps_day_bucket twoDayStore "oc_1@sendgrid.com"
      { id := 1, email := "oc_1@sendgrid.com", office := some 1 } 17106 17107 0 "pushups"
      (by decide) (by decide) (by decide) (by decide) (by decide)).2⟩


/-! ## Users -/

theorem getOrCreateUserID_found (db : Store) (email : String) (id : Int) (rest : List Int)
    (h : selectUserIDs db email = id :: rest) :
    getOrCreateUserID db email = ((id, none), db) := by
  simp [getOrCreateUserID, h]

theorem getOrCreateUserID_create (db : Store) (email : String) (o : Int)
    (h : selectUserIDs db email = []) (ho : selectUnassignedOffice db = [o]) :
    getOrCreateUserID db email =
      ((db.userAutoIncrement, none),
        { db with user := db.user ++
                    [{ id := db.userAutoIncrement, email := email, office := some o }],
                  userAutoIncrement := db.userAutoIncrement + 1 }) := by
  simp [getOrCreateUserID, h, ho]

theorem selectUserIDs_eq_nil_iff (db : Store) (email : String) :
    selectUserIDs db email = [] ↔ ∀ u ∈ db.user, u.email ≠ email := by
  unfold selectUserIDs
  rw [List.map_eq_nil_iff, List.filter_eq_nil_iff]
  simp

/-- C11: for an email that no row of table `user` has, in a store that has the
one unassigned office and whose user identifiers lie below the counter of the
table, the first `getOrCreateUserID` appends exactly one row, with the email
and the unassigned office, leaves every other table as it was, and returns the
identifier of that row without an error, an identifier that no earlier row has;
every later call returns the same identifier and the store it was given,
whatever rows have been appended to table `user` and whatever has become of the
other tables in between. -/
theorem getOrCreateUserID_fresh_then_stable (db : Store) (email : String) (o : Int)
    (hnew : ∀ u ∈ db.user, u.email ≠ email)
    (hoffice : selectUnassignedOffice db = [o])
    (hids : ∀ u ∈ db.user, u.id < db.userAutoIncrement) :
    getOrCreateUserID db email =
      ((db.userAutoIncrement, none),
        { db with user := db.user ++
                    [{ id := db.userAutoIncrement, email := email, office := some o }],
                  userAutoIncrement := db.userAutoIncrement + 1 }) ∧
    (∀ u ∈ db.user, u.id ≠ (getOrCreateUserID db email).1.1) ∧
    (∀ u ∈ (getOrCreateUserID db email).2.user,
      u.id < (getOrCreateUserID db email).2.userAutoIncrement) ∧
    getOrCreateUserID (getOrCreateUserID db email).2 email =
      (((getOrCreateUserID db email).1.1, none), (getOrCreateUserID db email).2) ∧
    ∀ later : Store, (∃ more, later.user = (getOrCreateUserID db email).2.user ++ more) →
      getOrCreateUserID later email = (((getOrCreateUserID db email).1.1, none), later) := by
  have hsel := (selectUserIDs_eq_nil_iff db email).mpr hnew
  have hfirst := getOrCreateUserID_create db email o hsel hoffice
  have hlater : ∀ later : Store,
      (∃ more, later.user = (db.user ++
        [({ id := db.userAutoIncrement, email := email, office := some o } : UserRow)]) ++ more) →
      getOrCreateUserID later email = ((db.userAutoIncrement, none), later) := by
    rintro later ⟨more, hmore⟩
    have hfilter : db.user.filter (fun u => decide (u.email = email)) = [] := by
      rw [List.filter_eq_nil_iff]
      intro u hu
      simpa using hnew u hu
    apply getOrCreateUserID_found later email db.userAutoIncrement
      ((more.filter (fun u => decide (u.email = email))).map (fun u => u.id))
    unfold selectUserIDs
    rw [hmore, List.filter_append, List.filter_append, hfilter]
    simp [List.filter]
  rw [hfirst]
  refine ⟨rfl, ?_, ?_, hlater _ ⟨[], by simp⟩, hlater⟩
  · intro u hu
    exact ne_of_lt (hids u hu)
  · intro u hu
    show u.id < db.userAutoIncrement + 1
    rcases List.mem_append.mp hu with h | h
    · have := hids u h; omega
    · rw [List.mem_singleton] at h
      subst h
      show db.userAutoIncrement < db.userAutoIncrement + 1
      omega

/-- Witness of C11: a new email in the seeded store. -/
theorem getOrCreateUserID_fresh_then_stable_witness :
    (getOrCreateUserID seededStore "oc_9@sendgrid.com").1 = (3, none) ∧
    (getOrCreateUserID seededStore "oc_9@sendgrid.com").2.user =
      seededStore.user ++ [{ id := 3, email := "oc_9@sendgrid.com", office := some 1 }] ∧
    getOrCreateUserID (getOrCreateUserID seededStore "oc_9@sendgrid.com").2
        "oc_9@sendgrid.com" =
      (((getOrCreateUserID seededStore "oc_9@sendgrid.com").1.1, none),
        (getOrCreateUserID seededStore "oc_9@sendgrid.com").2) :=
  ⟨by decide, by decide,
    (getOrCreateUserID_fresh_then_stable seededStore "oc_9@sendgrid.com" 1 (by decide)
      (by decide) (by decide)).2.2.2.1⟩

/-! ## Statistics of offices and teams -/

theorem calculateStats_some (a b c d : Int) : ∃ st, calculateStats a b c d = some st := by
  have hH : (if a = 0 then (1 : Int) else a) ≠ 0 := by
    by_cases h : a = 0 <;> simp [h]
  have hP : (if b = 0 then (1 : Int) else b) ≠ 0 := by
    by_cases h : b = 0 <;> simp [h]
  have hD : (if d ≤ 0 then (1 : Int) else d) ≠ 0 := by
    by_cases h : d ≤ 0
    · simp [h]
    · rw [if_neg h]; omega
  have hsome : (calculateStats a b c d).isSome = true := by
    simp [calculateStats, goDiv, hH, hP, hD]
  exact Option.isSome_iff_exists.mp hsome

/-- The two fields that the statistics block copies: the head count after its
guard, and the total. -/
theorem calculateStats_fields (a b c d : Int) (st : Stats)
    (h : calculateStats a b c d = some st) :
    st.HeadCount = (if a = 0 then 1 else a) ∧ st.HeadCount ≠ 0 ∧ st.TotalReps = c := by
  have hH : (if a = 0 then (1 : Int) else a) ≠ 0 := by
    by_cases h : a = 0 <;> simp [h]
  have hP : (if b = 0 then (1 : Int) else b) ≠ 0 := by
    by_cases h : b = 0 <;> simp [h]
  have hD : (if d ≤ 0 then (1 : Int) else d) ≠ 0 := by
    by_cases h : d ≤ 0
    · simp [h]
    · rw [if_neg h]; omega
  simp only [calculateStats, goDiv, if_neg hH, if_neg hP, if_neg hD, Option.bind_eq_bind,
    Option.some_bind, Option.pure_def, Option.some.injEq] at h
  subst h
  exact ⟨rfl, hH, rfl⟩

/-- The statistics block when the participating count is the head count, as in
`getTeamStats`. -/
theorem calculateStats_team (c t d : Int) (st : Stats)
    (h : calculateStats c c t d = some st) :
    st.RepsPerPersonParticipating = st.RepsPerPerson ∧
    st.RepsPerPersonParticipatingPerDay = st.RepsPerPersonPerDay ∧
    (1 ≤ c → c * 100 < 2 ^ 63 → st.PercentParticipating = 100) := by
  have hH : (if c = 0 then (1 : Int) else c) ≠ 0 := by
    by_cases h : c = 0 <;> simp [h]
  have hD : (if d ≤ 0 then (1 : Int) else d) ≠ 0 := by
    by_cases h : d ≤ 0
    · simp [h]
    · rw [if_neg h]; omega
  simp only [calculateStats, goDiv, if_neg hH, if_neg hD, Option.bind_eq_bind,
    Option.some_bind, Option.pure_def, Option.some.injEq] at h
  subst h
  refine ⟨rfl, rfl, ?_⟩
  intro h1 hmax
  have hc : c ≠ 0 := by omega
  show wrapInt (Int.tdiv (goMul c 100) (if c = 0 then 1 else c)) = 100
  have hmul : goMul c 100 = c * 100 := wrapInt_of_range _ (by norm_num; omega) hmax
  rw [if_neg hc, hmul, Int.tdiv_eq_ediv (by omega) (by omega),
    Int.mul_ediv_cancel_left 100 hc]
  rfl

theorem mem_setStats (m : List (String × Stats)) (k : String) (v : Stats)
    (e : String × Stats) (h : e ∈ setStats m k v) : e ∈ m ∨ e = (k, v) := by
  induction m with
  | nil =>
    right
    simpa [setStats] using h
  | cons a m ih =>
    obtain ⟨k₀, v₀⟩ := a
    by_cases hk : k₀ = k
    · simp only [setStats, if_pos hk, List.mem_cons] at h
      rcases h with h | h
      · right; rw [h, hk]
      · left; exact List.mem_cons_of_mem _ h
    · simp only [setStats, if_neg hk, List.mem_cons] at h
      rcases h with h | h
      · left; rw [h]; exact List.mem_cons_self _ _
      · rcases ih h with h' | h'
        · left; exact List.mem_cons_of_mem _ h'
        · right; exact h'

/-- Every record of the map that the loop of `getTeamStats` returns was computed
by the statistics block for a team of the store, with the head count of the
team as the participating count; the loop never panics. -/
theorem getTeamStatsLoop_entries (db : Store) (StartDate EndDate : Int)
    (P : String → Stats → Prop)
    (hP : ∀ team ∈ db.team, ∀ st,
      calculateStats (teamHeadCount db team.id) (teamHeadCount db team.id)
        (teamTotalReps db team.id StartDate EndDate) (totalDays StartDate EndDate) = some st →
      P team.name st) :
    ∀ (teams : List TeamRow) (acc : List (String × Stats)),
      (∀ t ∈ teams, t ∈ db.team) → (∀ e ∈ acc, P e.1 e.2) →
      ∃ result, getTeamStatsLoop db StartDate EndDate teams acc = some result ∧
        ∀ e ∈ result, P e.1 e.2 := by
  intro teams
  induction teams with
  | nil =>
    intro acc _ hacc
    exact ⟨acc, rfl, hacc⟩
  | cons team rest ih =>
    intro acc hteams hacc
    unfold getTeamStatsLoop
    by_cases hr : teamTotalReps db team.id StartDate EndDate < -(2 ^ 63) ∨
        2 ^ 63 ≤ teamTotalReps db team.id StartDate EndDate
    · simp only [if_pos hr]
      exact ⟨acc, rfl, hacc⟩
    · simp only [if_neg hr]
      obtain ⟨st, hst⟩ := calculateStats_some (teamHeadCount db team.id)
        (teamHeadCount db team.id) (teamTotalReps db team.id StartDate EndDate)
        (totalDays StartDate EndDate)
      simp only [hst]
      apply ih
      · intro t ht
        exact hteams t (List.mem_cons_of_mem _ ht)
      · intro e he
        rcases mem_setStats acc team.name st e he with h | h
        · exact hacc e h
        · rw [h]
          exact hP team (hteams team (List.mem_cons_self _ _)) st hst

/-- Every record of the map that the loop of `getOfficeStats` returns was
computed by the statistics block from the head count of the first row of the
office and from the two windowed query values; the loop never panics. -/
theorem getOfficeStatsLoop_entries (db : Store) (StartDate EndDate : Int)
    (P : String → Stats → Prop)
    (hP : ∀ (name : String) (headCount : Int) (others : List Int) (st : Stats),
      (db.office.filter (fun o => o.name = name)).map (fun o => o.head_count) =
        headCount :: others →
      calculateStats headCount
        ((((selectOfficeReps db name StartDate EndDate).map (fun ru => ru.2.id)).dedup).length)
        ((selectOfficeReps db name StartDate EndDate).map (fun ru => ru.1.count)).sum
        (totalDays StartDate EndDate) = some st →
      P name st) :
    ∀ (Offices : List String) (acc : List (String × Stats)),
      (∀ e ∈ acc, P e.1 e.2) →
      ∃ result, getOfficeStatsLoop db StartDate EndDate Offices acc = some result ∧
        ∀ e ∈ result, P e.1 e.2 := by
  intro Offices
  induction Offices with
  | nil =>
    intro acc hacc
    exact ⟨acc, rfl, hacc⟩
  | cons officeName rest ih =>
    intro acc hacc
    rw [getOfficeStatsLoop]
    rcases hq : (db.office.filter (fun o => o.name = officeName)).map (fun o => o.head_count)
      with _ | ⟨headCount, others⟩
    · simp only [hq]
      exact ih acc hacc
    · simp only [hq]
      by_cases hr : ((selectOfficeReps db officeName StartDate EndDate).map
            (fun ru => ru.1.count)).sum < -(2 ^ 63) ∨
          2 ^ 63 ≤ ((selectOfficeReps db officeName StartDate EndDate).map
            (fun ru => ru.1.count)).sum
      · simp only [if_pos hr]
        exact ⟨acc, rfl, hacc⟩
      · simp only [if_neg hr]
        obtain ⟨st, hst⟩ := calculateStats_some headCount
          ((((selectOfficeReps db officeName StartDate EndDate).map
            (fun ru => ru.2.id)).dedup).length)
          ((selectOfficeReps db officeName StartDate EndDate).map (fun ru => ru.1.count)).sum
          (totalDays StartDate EndDate)
        simp only [hst]
        apply ih
        intro e he
        rcases mem_setStats acc officeName st e he with h | h
        · exact hacc e h
        · rw [h]
          exact hP officeName headCount others st hq hst

/-- C13: `getOfficeStats` and `getTeamStats` never panic, and in every record
of the maps they return `HeadCount` is not 0: it is the stored head count (the
`head_count` of the first row of the office, the number of membership rows of
the team) when that is not 0, and 1 when it is; `TotalReps` is the value of the
query of the totals as it was scanned. -/
theorem stats_headCount_never_zero (db : Store) (Offices : List String)
    (StartDate EndDate : Int) :
    (∃ officeStats, getOfficeStats db Offices StartDate EndDate = some officeStats ∧
      ∀ name st, (name, st) ∈ officeStats →
        st.HeadCount ≠ 0 ∧
        st.TotalReps =
          ((selectOfficeReps db name StartDate EndDate).map (fun ru => ru.1.count)).sum ∧
        ∃ headCount,
          ((db.office.filter (fun o => o.name = name)).map (fun o => o.head_count)).head? =
            some headCount ∧
          st.HeadCount = (if headCount = 0 then 1 else headCount)) ∧
    (∃ teamStats, getTeamStats db StartDate EndDate = some teamStats ∧
      ∀ name st, (name, st) ∈ teamStats →
        st.HeadCount ≠ 0 ∧
        ∃ team ∈ db.team, team.name = name ∧
          st.TotalReps = teamTotalReps db team.id StartDate EndDate ∧
          st.HeadCount =
            (if teamHeadCount db team.id = 0 then 1 else teamHeadCount db team.id)) := by
  constructor
  · obtain ⟨result, hres, hall⟩ := getOfficeStatsLoop_entries db StartDate EndDate
      (fun name st => st.HeadCount ≠ 0 ∧
        st.TotalReps =
          ((selectOfficeReps db name StartDate EndDate).map (fun ru => ru.1.count)).sum ∧
        ∃ headCount,
          ((db.office.filter (fun o => o.name = name)).map (fun o => o.head_count)).head? =
            some headCount ∧
          st.HeadCount = (if headCount = 0 then 1 else headCount))
      (fun name headCount others st hq hst => by
        obtain ⟨h1, h2, h3⟩ := calculateStats_fields _ _ _ _ st hst
        exact ⟨h2, h3, headCount, by rw [hq]; rfl, h1⟩)
      Offices [] (by simp)
    exact ⟨result, hres, fun name st hmem => hall (name, st) hmem⟩
  · obtain ⟨result, hres, hall⟩ := getTeamStatsLoop_entries db StartDate EndDate
      (fun name st => st.HeadCount ≠ 0 ∧
        ∃ team ∈ db.team, team.name = name ∧
          st.TotalReps = teamTotalReps db team.id StartDate EndDate ∧
          st.HeadCount =
            (if teamHeadCount db team.id = 0 then 1 else teamHeadCount db team.id))
      (fun team hteam st hst => by
        obtain ⟨h1, h2, h3⟩ := calculateStats_fields _ _ _ _ st hst
        exact ⟨h2, team, hteam, rfl, h3, h1⟩)
      (getTeams db) [] (fun t ht => ht) (by simp)
    exact ⟨result, hres, fun name st hmem => hall (name, st) hmem⟩


/-! ## The end date of the window -/

theorem bucketCounts_of_no_match (label : String) (rows : List (String × Int × Int)) :
    ∀ m : ExerciseCounts, (∀ row ∈ rows, label ≠ monthDayLabel row.2.2) →
      bucketCounts label rows m = m := by
  induction rows with
  | nil => intro m _; rfl
  | cons row rows ih =>
    intro m hno
    have hstep : bucketCounts label (row :: rows) m =
        bucketCounts label rows
          (if label ≠ monthDayLabel row.2.2 then m else ExerciseCounts.add m row.1 row.2.1) := by
      simp [bucketCounts, List.foldl_cons]
    rw [hstep, if_pos (hno row (List.mem_cons_self _ _))]
    exact ih m (fun r hr => hno r (List.mem_cons_of_mem _ hr))

/-- Whatever the store holds, the bucket that `initRepData` makes for the end
date of a window with pairwise distinct labels comes back from `getUserReps`
empty: every row that the query selects was created before that day. -/
theorem getUserReps_end_bucket_empty (db : Store) (email : String) (ds de : Int)
    (hwin : ds ≤ de)
    (hlabels : ((initRepData (day24h * ds) (day24h * de)).map (fun rd => rd.Date)).Nodup) :
    (getUserReps db email (day24h * ds) (day24h * de))[(de - ds).toNat]? =
      some { Date := monthDayLabel (day24h * de), ExerciseCounts := [] } := by
  have hde : ds + ((de - ds).toNat : Int) = de := by omega
  have hno : ∀ row ∈ selectUserReps db email (day24h * ds) (day24h * de),
      monthDayLabel (day24h * de) ≠ monthDayLabel row.2.2 := by
    intro row hrow
    simp only [selectUserReps, List.mem_flatMap, List.mem_map, List.mem_filter,
      decide_eq_true_eq] at hrow
    obtain ⟨r, _, u, ⟨_, _, _, h1, h2⟩, rfl⟩ := hrow
    rw [formatDate_midnight] at h1 h2
    have hdiv : day24h * (r.created_at / day24h) ≤ r.created_at ∧
        r.created_at < day24h * (r.created_at / day24h) + day24h := by
      unfold day24h; omega
    have hlo : ds ≤ r.created_at / day24h := by unfold day24h at *; omega
    have hhi : r.created_at / day24h < de := by unfold day24h at *; omega
    obtain ⟨j, hj⟩ : ∃ j : Nat, r.created_at / day24h = ds + j :=
      ⟨(r.created_at / day24h - ds).toNat, by omega⟩
    intro heq
    show False
    have heq' : monthDayLabel (day24h * (ds + ((de - ds).toNat : Int))) =
        monthDayLabel (day24h * (ds + (j : Int))) := by
      rw [hde, ← hj, ← monthDayLabel_of_day]
      exact heq
    have := skeleton_label_inj ds de hwin hlabels (de - ds).toNat j (by omega) (by omega) heq'
    omega
  unfold getUserReps
  rw [foldl_addToBuckets, initRepData_days ds de hwin, List.map_map, List.getElem?_map,
    List.getElem?_range (by omega)]
  simp only [Option.map_some', Function.comp, hde]
  rw [bucketCounts_of_no_match _ _ [] hno]

/-! ## Teams of one name -/

/-- C8 as stated fails where two teams share a name: in the store with two
teams named "x", of which the user 1 is on the second, `addTeam "x" 1` reports
success but `isOnTeam` is false afterwards, and after `removeTeam "x" 1`, which
reports success, the list of the user's teams still contains "x". -/
theorem addTeam_then_removeTeam_duplicate_names :
    (addTeam duplicateTeamStore "x" 1).1 = none ∧
    isOnTeam (addTeam duplicateTeamStore "x" 1).2 (trimSpace "x") 1 = false ∧
    (removeTeam (addTeam duplicateTeamStore "x" 1).2 "x" 1).1 = none ∧
    getUserTeams (removeTeam (addTeam duplicateTeamStore "x" 1).2 "x" 1).2
      "oc_1@sendgrid.com" = ["x"] ∧
    contains (trimSpace "x")
      (getUserTeams (removeTeam (addTeam duplicateTeamStore "x" 1).2 "x" 1).2
        "oc_1@sendgrid.com") = true := by
  decide

/-! ## The scenario of an office, on the store -/

theorem getOfficeStats_single (db : Store) (StartDate EndDate : Int) (name : String)
    (headCount : Int) (others : List Int) (st : Stats)
    (hq : (db.office.filter (fun o => o.name = name)).map (fun o => o.head_count) =
      headCount :: others)
    (hlo : -(2 ^ 63) ≤
      ((selectOfficeReps db name StartDate EndDate).map (fun ru => ru.1.count)).sum)
    (hhi : ((selectOfficeReps db name StartDate EndDate).map (fun ru => ru.1.count)).sum <
      2 ^ 63)
    (hst : calculateStats headCount
      ((((selectOfficeReps db name StartDate EndDate).map (fun ru => ru.2.id)).dedup).length)
      ((selectOfficeReps db name StartDate EndDate).map (fun ru => ru.1.count)).sum
      (totalDays StartDate EndDate) = some st) :
    getOfficeStats db [name] StartDate EndDate = some [(name, st)] := by
  have hr : ¬ (((selectOfficeReps db name StartDate EndDate).map
        (fun ru => ru.1.count)).sum < -(2 ^ 63) ∨
      2 ^ 63 ≤ ((selectOfficeReps db name StartDate EndDate).map
        (fun ru => ru.1.count)).sum) := by
    intro h
    rcases h with h | h
    · exact absurd hlo (not_le.mpr h)
    · exact absurd hhi (not_lt.mpr h)
  unfold getOfficeStats
  rw [getOfficeStatsLoop]
  simp only [hq, if_neg hr, hst]
  rfl

/-- C4 (as amended): for every store and office whose first row has head count
10 and for which, over a window whose end date is four days after its start
date (so that `totalDays` is 4 and the day skeleton has five buckets), the
query of the participants counts 4 distinct users and the query of the totals
sums 200 reps, `getOfficeStats` reports for that office 40 percent, 20 reps per
person, 50 per participating person, 5 per person per day and 12 per
participating person per day: as its only record when the catalog is that
office, and as the record of that office in the map of any catalog. -/
theorem getOfficeStats_scenario (db : Store) (officeName : String) (ds : Int)
    (hhead : ((db.office.filter (fun o => o.name = officeName)).map
      (fun o => o.head_count)).head? = some 10)
    (hpart : (((selectOfficeReps db officeName (day24h * ds) (day24h * (ds + 4))).map
      (fun ru => ru.2.id)).dedup).length = 4)
    (htotal : ((selectOfficeReps db officeName (day24h * ds) (day24h * (ds + 4))).map
      (fun ru => ru.1.count)).sum = 200) :
    totalDays (day24h * ds) (day24h * (ds + 4)) = 4 ∧
    (initRepData (day24h * ds) (day24h * (ds + 4))).length = 5 ∧
    getOfficeStats db [officeName] (day24h * ds) (day24h * (ds + 4)) =
      some [(officeName,
        { HeadCount := 10, TotalReps := 200, PercentParticipating := 40,
          RepsPerPerson := 20, RepsPerPersonParticipating := 50,
          RepsPerPersonParticipatingPerDay := 12, RepsPerPersonPerDay := 5 })] ∧
    ∀ Offices : List String,
      ∃ officeStats,
        getOfficeStats db Offices (day24h * ds) (day24h * (ds + 4)) = some officeStats ∧
        ∀ st, (officeName, st) ∈ officeStats →
          st = { HeadCount := 10, TotalReps := 200, PercentParticipating := 40,
                 RepsPerPerson := 20, RepsPerPersonParticipating := 50,
                 RepsPerPersonParticipatingPerDay := 12, RepsPerPersonPerDay := 5 } := by
  have h4 : totalDays (day24h * ds) (day24h * (ds + 4)) = 4 := by
    have := totalDays_midnights ds 4 (by decide)
    push_cast at this
    exact this
  have l4 : (initRepData (day24h * ds) (day24h * (ds + 4))).length = 5 := by
    rw [initRepData_days ds (ds + 4) (by omega)]
    have : ds + 4 - ds = 4 := by ring
    simp [this]
  have hblock : calculateStats 10 ((4 : Nat) : Int) 200 4 =
      some { HeadCount := 10, TotalReps := 200, PercentParticipating := 40,
             RepsPerPerson := 20, RepsPerPersonParticipating := 50,
             RepsPerPersonParticipatingPerDay := 12, RepsPerPersonPerDay := 5 } := by
    decide
  obtain ⟨others, hq⟩ : ∃ others, (db.office.filter (fun o => o.name = officeName)).map
      (fun o => o.head_count) = 10 :: others := by
    rcases hl : (db.office.filter (fun o => o.name = officeName)).map
        (fun o => o.head_count) with _ | ⟨a, l⟩
    · rw [hl] at hhead; simp at hhead
    · rw [hl] at hhead
      simp only [List.head?_cons, Option.some.injEq] at hhead
      exact ⟨l, by rw [hl, hhead]⟩
  refine ⟨h4, l4, ?_, ?_⟩
  · apply getOfficeStats_single db _ _ officeName 10 others _ hq
    · rw [htotal]; decide
    · rw [htotal]; decide
    · rw [hpart, htotal, h4]; exact hblock
  · intro Offices
    obtain ⟨result, hres, hall⟩ := getOfficeStatsLoop_entries db (day24h * ds)
      (day24h * (ds + 4))
      (fun name st => name = officeName →
        st = { HeadCount := 10, TotalReps := 200, PercentParticipating := 40,
               RepsPerPerson := 20, RepsPerPersonParticipating := 50,
               RepsPerPersonParticipatingPerDay := 12, RepsPerPersonPerDay := 5 })
      (fun name headCount others' st hq' hst hname => by
        subst hname
        rw [hq] at hq'
        have hh : headCount = 10 := by
          simp only [List.cons.injEq] at hq'
          exact hq'.1.symm
        rw [hh, hpart, htotal, h4, hblock] at hst
        exact (Option.some.inj hst).symm)
      Offices [] (by simp)
    exact ⟨result, hres, fun st hmem => hall (officeName, st) hmem rfl⟩

/-- Witness of the amended C4: the office "OC" of the scenario store over the
window from 2016-11-01 to 2016-11-05. -/
theorem getOfficeStats_scenario_witness :
    getOfficeStats scenarioStore ["OC"] (day24h * 17106) (day24h * (17106 + 4)) =
      some [("OC",
        { HeadCount := 10, TotalReps := 200, PercentParticipating := 40,
          RepsPerPerson := 20, RepsPerPersonParticipating := 50,
          RepsPerPersonParticipatingPerDay := 12, RepsPerPersonPerDay := 5 })] :=
  (getOfficeStats_scenario scenarioStore "OC" 17106 (by decide) (by decide)
    (by decide)).2.2.1

/-! ## The record of every team -/

theorem setStats_has_key (m : List (String × Stats)) (k : String) (v : Stats) (k' : String)
    (h : (∃ v', (k', v') ∈ m) ∨ k' = k) : ∃ v', (k', v') ∈ setStats m k v := by
  induction m with
  | nil =>
    rcases h with ⟨v', hv'⟩ | h
    · exact absurd hv' (List.not_mem_nil _)
    · exact ⟨v, by rw [h]; simp [setStats]⟩
  | cons a m ih =>
    obtain ⟨k₀, v₀⟩ := a
    by_cases hk : k₀ = k
    · simp only [setStats, if_pos hk]
      rcases h with ⟨v', hv'⟩ | h
      · rcases List.mem_cons.mp hv' with h1 | h1
        · have hk' : k' = k₀ := (Prod.mk.inj h1).1
          exact ⟨v, by rw [hk']; exact List.mem_cons_self _ _⟩
        · exact ⟨v', List.mem_cons_of_mem _ h1⟩
      · exact ⟨v, by rw [h, hk]; exact List.mem_cons_self _ _⟩
    · simp only [setStats, if_neg hk]
      rcases h with ⟨v', hv'⟩ | h
      · rcases List.mem_cons.mp hv' with h1 | h1
        · exact ⟨v', by rw [h1]; exact List.mem_cons_self _ _⟩
        · obtain ⟨w, hw⟩ := ih (Or.inl ⟨v', h1⟩)
          exact ⟨w, List.mem_cons_of_mem _ hw⟩
      · obtain ⟨w, hw⟩ := ih (Or.inr h)
        exact ⟨w, List.mem_cons_of_mem _ hw⟩

/-- When every total scans, the loop of `getTeamStats` goes over all the teams,
and the map it returns has a record under the name of each of them. -/
theorem getTeamStatsLoop_keys (db : Store) (StartDate EndDate : Int) :
    ∀ (teams : List TeamRow) (acc : List (String × Stats)),
      (∀ t ∈ teams, -(2 ^ 63) ≤ teamTotalReps db t.id StartDate EndDate ∧
        teamTotalReps db t.id StartDate EndDate < 2 ^ 63) →
      ∃ result, getTeamStatsLoop db StartDate EndDate teams acc = some result ∧
        ∀ k, ((∃ v, (k, v) ∈ acc) ∨ ∃ t ∈ teams, t.name = k) → ∃ v, (k, v) ∈ result := by
  intro teams
  induction teams with
  | nil =>
    intro acc _
    refine ⟨acc, rfl, ?_⟩
    intro k hk
    rcases hk with h | ⟨t, ht, _⟩
    · exact h
    · exact absurd ht (List.not_mem_nil _)
  | cons team rest ih =>
    intro acc hscan
    have hteam := hscan team (List.mem_cons_self _ _)
    have hr : ¬ (teamTotalReps db team.id StartDate EndDate < -(2 ^ 63) ∨
        2 ^ 63 ≤ teamTotalReps db team.id StartDate EndDate) := by
      intro h
      rcases h with h | h
      · exact absurd hteam.1 (not_le.mpr h)
      · exact absurd hteam.2 (not_lt.mpr h)
    obtain ⟨st, hst⟩ := calculateStats_some (teamHeadCount db team.id)
      (teamHeadCount db team.id) (teamTotalReps db team.id StartDate EndDate)
      (totalDays StartDate EndDate)
    obtain ⟨result, hres, hkeys⟩ := ih (setStats acc team.name st)
      (fun t ht => hscan t (List.mem_cons_of_mem _ ht))
    refine ⟨result, ?_, ?_⟩
    · rw [getTeamStatsLoop]
      simp only [if_neg hr, hst]
      exact hres
    · intro k hk
      apply hkeys
      rcases hk with h | ⟨t, ht, hname⟩
      · exact Or.inl (setStats_has_key acc team.name st k (Or.inl h))
      · rcases List.mem_cons.mp ht with h1 | h1
        · exact Or.inl (setStats_has_key acc team.name st k (Or.inr (by rw [← hname, h1])))
        · exact Or.inr ⟨t, h1, hname⟩

/-- C12 as stated fails where two teams share a name: in the store whose first
team "eng" has two members and whose second team "eng" has none, the map of
`getTeamStats` is keyed by the name, the record of the second team replaces the
one of the first, and the only record reports 0 percent for the team of two. -/
theorem getTeamStats_same_name_teams :
    teamHeadCount sameNameTeamsStore 1 = 2 ∧
    getTeamStats sameNameTeamsStore 1477958400 1478217600 =
      some [("eng",
        { HeadCount := 1, TotalReps := 0, PercentParticipating := 0, RepsPerPerson := 0,
          RepsPerPersonParticipating := 0, RepsPerPersonParticipatingPerDay := 0,
          RepsPerPersonPerDay := 0 })] := by
  decide

/-- C12 (as amended): in a store whose team names are unique and whose totals
scan into an `int64`, `getTeamStats` returns a map that holds for every team
exactly one record under its name, the one that the statistics block of the
offices computes with the head count of the team, its number of membership
rows, as the participating count; hence for every team
`RepsPerPersonParticipating` is `RepsPerPerson` and
`RepsPerPersonParticipatingPerDay` is `RepsPerPersonPerDay`, and for every team
with at least one member, a hundred times whose head count is inside the 64-bit
`int`, `PercentParticipating` is 100. -/
theorem getTeamStats_formulas (db : Store) (StartDate EndDate : Int)
    (hnames : (db.team.map (fun r => r.name)).Nodup)
    (hscan : ∀ t ∈ db.team, -(2 ^ 63) ≤ teamTotalReps db t.id StartDate EndDate ∧
      teamTotalReps db t.id StartDate EndDate < 2 ^ 63) :
    ∃ teamStats, getTeamStats db StartDate EndDate = some teamStats ∧
      ∀ team ∈ db.team,
        ∃ st, (team.name, st) ∈ teamStats ∧
          (∀ st', (team.name, st') ∈ teamStats → st' = st) ∧
          calculateStats (teamHeadCount db team.id) (teamHeadCount db team.id)
            (teamTotalReps db team.id StartDate EndDate) (totalDays StartDate EndDate) =
              some st ∧
          st.RepsPerPersonParticipating = st.RepsPerPerson ∧
          st.RepsPerPersonParticipatingPerDay = st.RepsPerPersonPerDay ∧
          (1 ≤ teamHeadCount db team.id → teamHeadCount db team.id * 100 < 2 ^ 63 →
            st.PercentParticipating = 100) := by
  obtain ⟨result, hres, hkeys⟩ := getTeamStatsLoop_keys db StartDate EndDate (getTeams db) []
    hscan
  obtain ⟨result', hres', hall⟩ := getTeamStatsLoop_entries db StartDate EndDate
    (fun name st => ∃ team ∈ db.team, team.name = name ∧
      calculateStats (teamHeadCount db team.id) (teamHeadCount db team.id)
        (teamTotalReps db team.id StartDate EndDate) (totalDays StartDate EndDate) = some st)
    (fun team hteam st hst => ⟨team, hteam, rfl, hst⟩)
    (getTeams db) [] (fun t ht => ht) (by simp)
  have hsame : result' = result := by
    rw [hres] at hres'
    exact (Option.some.inj hres').symm
  subst hsame
  refine ⟨result', hres, ?_⟩
  intro team hteam
  have hof : ∀ st', (team.name, st') ∈ result' →
      calculateStats (teamHeadCount db team.id) (teamHeadCount db team.id)
        (teamTotalReps db team.id StartDate EndDate) (totalDays StartDate EndDate) =
          some st' := by
    intro st' hmem
    obtain ⟨team', hteam', hname, hst⟩ := hall (team.name, st') hmem
    have heq : team' = team := List.inj_on_of_nodup_map hnames hteam' hteam hname
    rw [heq] at hst
    exact hst
  obtain ⟨st, hmem⟩ := hkeys team.name (Or.inr ⟨team, hteam, rfl⟩)
  have hst := hof st hmem
  refine ⟨st, hmem, ?_, hst, calculateStats_team _ _ _ st hst⟩
  intro st' hmem'
  have hst' := hof st' hmem'
  rw [hst] at hst'
  exact (Option.some.inj hst').symm

/-- Witness of the amended C12: the teams "eng", of two members, and "idle", of
none, in the seeded store. -/
theorem getTeamStats_formulas_witness :
    getTeamStats seededStore 1477958400 1478217600 =
      some [("eng",
        { HeadCount := 2, TotalReps := 41, PercentParticipating := 100, RepsPerPerson := 20,
          RepsPerPersonParticipating := 20, RepsPerPersonParticipatingPerDay := 6,
          RepsPerPersonPerDay := 6 }),
        ("idle",
        { HeadCount := 1, TotalReps := 0, PercentParticipating := 0, RepsPerPerson := 0,
          RepsPerPersonParticipating := 0, RepsPerPersonParticipatingPerDay := 0,
          RepsPerPersonPerDay := 0 })] ∧
    ∃ teamStats, getTeamStats seededStore 1477958400 1478217600 = some teamStats ∧
      ∀ team ∈ seededStore.team,
        ∃ st, (team.name, st) ∈ teamStats ∧
          (∀ st', (team.name, st') ∈ teamStats → st' = st) ∧
          calculateStats (teamHeadCount seededStore team.id) (teamHeadCount seededStore team.id)
            (teamTotalReps seededStore team.id 1477958400 1478217600)
            (totalDays 1477958400 1478217600) = some st ∧
          st.RepsPerPersonParticipating = st.RepsPerPerson ∧
          st.RepsPerPersonParticipatingPerDay = st.RepsPerPersonPerDay ∧
          (1 ≤ teamHeadCount seededStore team.id →
            teamHeadCount seededStore team.id * 100 < 2 ^ 63 →
            st.PercentParticipating = 100) :=
  ⟨by decide,
    getTeamStats_formulas seededStore 1477958400 1478217600 (by decide) (by decide)⟩

end CountMyReps
